import Mathlib

/-!
Shallow embedding of the spatiotemporal causal-matching pipeline of the
`gun_violence` package (modules `modeling/causality.py`, `modeling/distance.py`
and `modeling/core.py`), together with theorems settling the frozen claims
about it.

Conventions of the embedding:
* machine floats become exact rationals (`ℚ`);
* Euclidean distances are carried as *squared* distances (a rational), and
  every comparison the source makes between a distance `√d2` and a bound `b`
  is translated through the square: `√d2 ≤ b ↔ 0 ≤ b ∧ d2 ≤ b^2`, etc.
  The helpers `sqrtLe`, `sqrtLt`, `sqrtLeB` below package these equivalences
  so that no real square root is ever needed;
* pandas data frames become explicit lists of rows; fallible code returns
  `Except Err`.
-/

namespace GunViolence

/-- `FT_PER_MILE = 5280` from `causality.py`. -/
def FT_PER_MILE : ℚ := 5280

/-- `SECONDS_PER_DAY = 60 * 60 * 24` from `causality.py`. -/
def SECONDS_PER_DAY : ℚ := 60 * 60 * 24

/-- Python exception kinds that the embedded code can raise.  The source never
constructs a `ValidationError` (the spec's name for precondition failures);
the constructor is nonetheless present so that claims about it can be
stated. -/
inductive Err where
  | assertionError
  | indexError
  | keyError
  | valueError
  | validationError
deriving DecidableEq, Repr

/-- Structural decidable equality for `Except`, used to evaluate the embedded
functions on concrete inputs. -/
instance {ε α : Type} [DecidableEq ε] [DecidableEq α] : DecidableEq (Except ε α) := fun a b =>
  match a, b with
  | .ok x, .ok y =>
      if h : x = y then isTrue (by rw [h]) else isFalse (by intro hc; cases hc; exact h rfl)
  | .ok _, .error _ => isFalse (by intro hc; cases hc)
  | .error _, .ok _ => isFalse (by intro hc; cases hc)
  | .error e, .error e' =>
      if h : e = e' then isTrue (by rw [h]) else isFalse (by intro hc; cases hc; exact h rfl)

/-- Squared Euclidean distance between two planar points. -/
def sqDist (p q : ℚ × ℚ) : ℚ := (p.1 - q.1) ^ 2 + (p.2 - q.2) ^ 2

/-- `sqrtLe b d2` decides `b ≤ √d2` for `0 ≤ d2`: true iff `b ≤ 0` or
`b^2 ≤ d2`. -/
def sqrtLe (b d2 : ℚ) : Bool := decide (b ≤ 0) || decide (b ^ 2 ≤ d2)

/-- `sqrtLt d2 b` decides `√d2 < b` for `0 ≤ d2`: true iff `0 < b` and
`d2 < b^2`. -/
def sqrtLt (d2 b : ℚ) : Bool := decide (0 < b) && decide (d2 < b ^ 2)

/-- `sqrtLeB d2 b` decides `√d2 ≤ b` for `0 ≤ d2`: true iff `0 ≤ b` and
`d2 ≤ b^2`. -/
def sqrtLeB (d2 b : ℚ) : Bool := decide (0 ≤ b) && decide (d2 ≤ b ^ 2)

theorem sqDist_nonneg (p q : ℚ × ℚ) : 0 ≤ sqDist p q :=
  add_nonneg (sq_nonneg _) (sq_nonneg _)

/-- A squared distance strictly below a band's upper edge cannot also sit at or
above a larger (or equal) lower edge: the half-open bands
`[lo, hi)` induced by an ascending edge list are pairwise disjoint. -/
theorem sqrtLt_disjoint {d2 b b' : ℚ} (hbb : b ≤ b')
    (h1 : sqrtLt d2 b = true) (h2 : sqrtLe b' d2 = true) : False := by
  simp only [sqrtLt, sqrtLe, Bool.and_eq_true, Bool.or_eq_true, decide_eq_true_eq] at h1 h2
  rcases h2 with h2 | h2
  · linarith [h1.1]
  · nlinarith [h1.1, h1.2]

/-!
## `knn_distance` (causality.py lines 11–32)

The source delegates to scikit-learn's `NearestNeighbors.radius_neighbors`
(ball tree).  Per scikit-learn's documented contract for radius queries, the
result contains every reference point whose distance to the query point is at
most the radius — points lying on the boundary of the ball are included.  The
embedding returns, for every query (homicide) point, the list of
`(sale index, squared distance)` pairs satisfying `√d2 ≤ radius`, in index
order (the source never relies on the provider's ordering: downstream access
is elementwise or set-like).  scikit-learn validates its inputs:
`.fit(sales)` raises `ValueError` on an empty reference array and
`.radius_neighbors(homicides)` raises `ValueError` on an empty query array,
so `knn_distance` fails with `ValueError` whenever either point list is
empty.
-/

/-- The payload of a successful radius query (`nbrs.radius_neighbors`): for
every query (homicide) point the `(index, squared distance)` pairs of all
sale points within `radius` (boundary included). -/
def radius_neighbors (homicides sales : List (ℚ × ℚ)) (radius : ℚ) :
    List (List (ℕ × ℚ)) :=
  homicides.map fun h =>
    sales.enum.filterMap fun js =>
      if sqrtLeB (sqDist h js.2) radius then some (js.1, sqDist h js.2) else none

/-- Embedding of `knn_distance(homicides, sales, radius)` (causality.py lines
11–32): `NearestNeighbors.fit` on an empty sale array, and `radius_neighbors`
on an empty homicide array, raise `ValueError`; otherwise the query
succeeds. -/
def knn_distance (homicides sales : List (ℚ × ℚ)) (radius : ℚ) :
    Except Err (List (List (ℕ × ℚ))) :=
  if sales.isEmpty || homicides.isEmpty then .error .valueError
  else .ok (radius_neighbors homicides sales radius)

/-- A successful radius query returns exactly the `radius_neighbors`
payload. -/
theorem knn_distance_ok_elim {homicides sales : List (ℚ × ℚ)} {radius : ℚ}
    {out : List (List (ℕ × ℚ))}
    (h : knn_distance homicides sales radius = .ok out) :
    out = radius_neighbors homicides sales radius := by
  unfold knn_distance at h
  split at h
  · cases h
  · exact (Except.ok.inj h).symm

/-- One homicide row: a (possibly missing) planar location and the
`time_offset` value (seconds since the fixed epoch). -/
structure HomRow where
  geometry : Option (ℚ × ℚ)
  time_offset : ℚ
deriving DecidableEq, Repr

/-- One sale row: location, `time_offset`, `sale_date` (an instant, in
seconds), the indexed sale price, and the total livable area. -/
structure SaleRow where
  geometry : Option (ℚ × ℚ)
  time_offset : ℚ
  sale_date : ℚ
  sale_price_indexed : ℚ
  total_livable_area : ℚ
deriving DecidableEq, Repr

/-- The homicide table.  `has_time_offset` records whether the
`time_offset` column is present (the row field is only meaningful when it
is). -/
structure HomTable where
  rows : List HomRow
  has_time_offset : Bool
deriving DecidableEq, Repr

/-- The sales table, with the same column-presence flag. -/
structure SaleTable where
  rows : List SaleRow
  has_time_offset : Bool
deriving DecidableEq, Repr

/-- The per-homicide match group yielded by
`_get_sale_groups_by_homicide`: the time differences of all radius
candidates, and the indices / squared distances of the candidates classified
before resp. after the homicide. -/
structure MatchGroup where
  dt : List ℚ
  beforeIdx : List ℕ
  afterIdx : List ℕ
  beforeD : List ℚ
  afterD : List ℚ
deriving DecidableEq, Repr

/-- The classification predicate for "after": `0 < dt < window_after * 86400`
(causality.py line 86). -/
def afterTest (dt w_after : ℚ) : Bool :=
  decide (0 < dt) && decide (dt < w_after * SECONDS_PER_DAY)

/-- The classification predicate for "before": `-window_before * 86400 < dt < 0`
(causality.py line 89). -/
def beforeTest (dt w_before : ℚ) : Bool :=
  decide (dt < 0) && decide (-w_before * SECONDS_PER_DAY < dt)

/-- The `time_offset` of sale `j`, positionally (`.iloc`); candidates always
carry in-range indices, so the default is never consulted along reachable
paths. -/
def saleTime (sales : SaleTable) (j : ℕ) : ℚ :=
  ((sales.rows.get? j).map SaleRow.time_offset).getD 0

/-- The match group of one homicide row `h` given its radius candidates
`nbrs` (causality.py lines 80–94). -/
def mkMatchGroup (sales : SaleTable) (w : ℚ × ℚ) (h : HomRow)
    (nbrs : List (ℕ × ℚ)) : MatchGroup :=
  let dtOf : ℕ → ℚ := fun j => saleTime sales j - h.time_offset
  let afterE := nbrs.filter fun jd => afterTest (dtOf jd.1) w.2
  let beforeE := nbrs.filter fun jd => beforeTest (dtOf jd.1) w.1
  { dt := nbrs.map fun jd => dtOf jd.1
    beforeIdx := beforeE.map Prod.fst
    afterIdx := afterE.map Prod.fst
    beforeD := beforeE.map Prod.snd
    afterD := afterE.map Prod.snd }

/-- Embedding of `_get_sale_groups_by_homicide(homicides, sales,
space_radius, time_window)` (causality.py lines 35–94).  The four `assert`
statements become `Err.assertionError` (they run first); then the
`knn_distance` call can fail with `ValueError` on an empty table; otherwise
one `MatchGroup` per homicide is produced. -/
def get_sale_groups_by_homicide (homicides : HomTable) (sales : SaleTable)
    (space_radius : ℚ) (time_window : ℚ × ℚ) : Except Err (List MatchGroup) :=
  if ¬ (sales.rows.all fun r => r.geometry.isSome) then .error .assertionError
  else if ¬ (homicides.rows.all fun r => r.geometry.isSome) then .error .assertionError
  else if ¬ sales.has_time_offset then .error .assertionError
  else if ¬ homicides.has_time_offset then .error .assertionError
  else
    let salesXY := sales.rows.map fun r => r.geometry.getD (0, 0)
    let homicidesXY := homicides.rows.map fun r => r.geometry.getD (0, 0)
    match knn_distance homicidesXY salesXY (space_radius * FT_PER_MILE) with
    | .error e => .error e
    | .ok neighbors =>
      .ok ((homicides.rows.zip neighbors).map fun hn =>
        mkMatchGroup sales time_window hn.1 hn.2)

/-- The x/y coordinate pairs the matcher extracts from a table's geometry
column (causality.py lines 64–66); the default is never consulted because the
matcher first asserts that no geometry is missing. -/
def tableXY (geoms : List (Option (ℚ × ℚ))) : List (ℚ × ℚ) :=
  geoms.map fun g => g.getD (0, 0)

/-- The candidate sale indices the radius query yields for homicide `i`, as
the matcher consumes them on a successful run. -/
def radiusCandidates (homicides : HomTable) (sales : SaleTable)
    (space_radius : ℚ) (i : ℕ) : List ℕ :=
  ((radius_neighbors (tableXY (homicides.rows.map HomRow.geometry))
      (tableXY (sales.rows.map SaleRow.geometry))
      (space_radius * FT_PER_MILE)).getD i []).map Prod.fst

/-- When no assertion fires and the radius query succeeds, the matcher
returns exactly the mapped zip of homicide rows with their radius-query
neighbor lists. -/
theorem get_sale_groups_ok_eq {homicides : HomTable} {sales : SaleTable}
    {space_radius : ℚ} {w : ℚ × ℚ} {gs : List MatchGroup}
    (hok : get_sale_groups_by_homicide homicides sales space_radius w = .ok gs) :
    gs = (homicides.rows.zip
        (radius_neighbors (tableXY (homicides.rows.map HomRow.geometry))
          (tableXY (sales.rows.map SaleRow.geometry))
          (space_radius * FT_PER_MILE))).map
      fun hn => mkMatchGroup sales w hn.1 hn.2 := by
  simp only [get_sale_groups_by_homicide] at hok
  split at hok
  · cases hok
  · split at hok
    · cases hok
    · split at hok
      · cases hok
      · split at hok
        · cases hok
        · split at hok
          · cases hok
          · rename_i neighbors heq
            cases hok
            rw [knn_distance_ok_elim heq]
            simp [tableXY, List.map_map, Function.comp_def]

theorem mkMatchGroup_after_mem (sales : SaleTable) (w : ℚ × ℚ) (h : HomRow)
    (nbrs : List (ℕ × ℚ)) (j : ℕ) :
    j ∈ (mkMatchGroup sales w h nbrs).afterIdx ↔
      ∃ d2, (j, d2) ∈ nbrs ∧
        afterTest (saleTime sales j - h.time_offset) w.2 = true := by
  simp only [mkMatchGroup, List.mem_map, List.mem_filter]
  constructor
  · rintro ⟨⟨j', d2⟩, ⟨hmem, htest⟩, rfl⟩
    exact ⟨d2, hmem, htest⟩
  · rintro ⟨d2, hmem, htest⟩
    exact ⟨(j, d2), ⟨hmem, htest⟩, rfl⟩

theorem mkMatchGroup_before_mem (sales : SaleTable) (w : ℚ × ℚ) (h : HomRow)
    (nbrs : List (ℕ × ℚ)) (j : ℕ) :
    j ∈ (mkMatchGroup sales w h nbrs).beforeIdx ↔
      ∃ d2, (j, d2) ∈ nbrs ∧
        beforeTest (saleTime sales j - h.time_offset) w.1 = true := by
  simp only [mkMatchGroup, List.mem_map, List.mem_filter]
  constructor
  · rintro ⟨⟨j', d2⟩, ⟨hmem, htest⟩, rfl⟩
    exact ⟨d2, hmem, htest⟩
  · rintro ⟨d2, hmem, htest⟩
    exact ⟨(j, d2), ⟨hmem, htest⟩, rfl⟩

/-- C1: for every homicide `i` and every candidate sale `j` returned by the
radius query, the matcher classifies `j` as "after" exactly when
`0 < dt < after_days * 86400` and as "before" exactly when
`-before_days * 86400 < dt < 0`, with `dt = sale.time_offset -
event.time_offset`; a candidate with `dt = 0` (or outside both windows) lands
in neither group. -/
theorem eventMatcher_classification
    (homicides : HomTable) (sales : SaleTable) (space_radius : ℚ) (w : ℚ × ℚ)
    (gs : List MatchGroup)
    (hok : get_sale_groups_by_homicide homicides sales space_radius w = .ok gs)
    (i : ℕ) (g : MatchGroup) (hg : gs.get? i = some g)
    (hrow : HomRow) (hh : homicides.rows.get? i = some hrow)
    (j : ℕ) (srow : SaleRow) (hs : sales.rows.get? j = some srow)
    (hcand : j ∈ radiusCandidates homicides sales space_radius i) :
    (j ∈ g.afterIdx ↔
        0 < srow.time_offset - hrow.time_offset ∧
        srow.time_offset - hrow.time_offset < w.2 * SECONDS_PER_DAY) ∧
    (j ∈ g.beforeIdx ↔
        srow.time_offset - hrow.time_offset < 0 ∧
        -(w.1 * SECONDS_PER_DAY) < srow.time_offset - hrow.time_offset) ∧
    (srow.time_offset - hrow.time_offset = 0 →
        j ∉ g.afterIdx ∧ j ∉ g.beforeIdx) := by
  have hgs := get_sale_groups_ok_eq hok
  subst hgs
  rw [List.get?_map] at hg
  rcases Option.map_eq_some'.1 hg with ⟨⟨hrow', nbrs⟩, hzip, hgdef⟩
  rcases (List.get?_zip_eq_some _ _ _ _).1 hzip with ⟨hh', hn⟩
  rw [hh] at hh'
  cases hh'
  have hnbrsi :
      ((radius_neighbors (tableXY (homicides.rows.map HomRow.geometry))
          (tableXY (sales.rows.map SaleRow.geometry))
          (space_radius * FT_PER_MILE)).getD i []) = nbrs := by
    rw [List.getD_eq_getElem?_getD, ← List.get?_eq_getElem?, hn]
    rfl
  have hs2 : sales.rows[j]? = some srow := by
    rw [← List.get?_eq_getElem?]
    exact hs
  have hst : saleTime sales j = srow.time_offset := by
    simp [saleTime, hs2]
  have hcand2 : j ∈ nbrs.map Prod.fst := by
    unfold radiusCandidates at hcand
    rw [hnbrsi] at hcand
    exact hcand
  subst hgdef
  constructor
  · rw [mkMatchGroup_after_mem]
    constructor
    · rintro ⟨d2, _, htest⟩
      rw [hst] at htest
      simpa [afterTest] using htest
    · intro hdt
      rcases List.mem_map.1 hcand2 with ⟨⟨j', d2⟩, hmem, hj⟩
      obtain rfl : j' = j := hj
      exact ⟨d2, hmem, by
        simp only [afterTest, Bool.and_eq_true, decide_eq_true_eq, hst]
        exact hdt⟩
  constructor
  · rw [mkMatchGroup_before_mem]
    constructor
    · rintro ⟨d2, _, htest⟩
      rw [hst] at htest
      simpa [beforeTest] using htest
    · intro hdt
      rcases List.mem_map.1 hcand2 with ⟨⟨j', d2⟩, hmem, hj⟩
      obtain rfl : j' = j := hj
      exact ⟨d2, hmem, by
        simp only [beforeTest, Bool.and_eq_true, decide_eq_true_eq, hst, neg_mul]
        exact hdt⟩
  · intro hzero
    constructor
    · rw [mkMatchGroup_after_mem]
      rintro ⟨d2, _, htest⟩
      rw [hst] at htest
      simp [afterTest, hzero] at htest
    · rw [mkMatchGroup_before_mem]
      rintro ⟨d2, _, htest⟩
      rw [hst] at htest
      simp [beforeTest, hzero] at htest

/-- Witness for `eventMatcher_classification`: a homicide at `t = 0` and sales
at `t = ±10` days (and `t = 0`) at the same location, window `(20, 20)` days,
radius 1 mile. -/
theorem eventMatcher_classification_witness :
    ((1 : ℕ) ∈ ((⟨[-864000, 864000, 0], [0], [1], [0], [0]⟩ : MatchGroup)).afterIdx ↔
      (0 : ℚ) < 864000 - 0 ∧ (864000 : ℚ) - 0 < 20 * SECONDS_PER_DAY) ∧
    ((1 : ℕ) ∈ ((⟨[-864000, 864000, 0], [0], [1], [0], [0]⟩ : MatchGroup)).beforeIdx ↔
      (864000 : ℚ) - 0 < 0 ∧ -((20 : ℚ) * SECONDS_PER_DAY) < 864000 - 0) ∧
    ((864000 : ℚ) - 0 = 0 →
      (1 : ℕ) ∉ ((⟨[-864000, 864000, 0], [0], [1], [0], [0]⟩ : MatchGroup)).afterIdx ∧
      (1 : ℕ) ∉ ((⟨[-864000, 864000, 0], [0], [1], [0], [0]⟩ : MatchGroup)).beforeIdx) :=
  eventMatcher_classification
    ⟨[⟨some (0, 0), 0⟩], true⟩
    ⟨[⟨some (0, 0), -864000, 0, 0, 0⟩, ⟨some (0, 0), 864000, 0, 0, 0⟩,
      ⟨some (0, 0), 0, 0, 0, 0⟩], true⟩
    1 (20, 20)
    [{ dt := [-864000, 864000, 0], beforeIdx := [0], afterIdx := [1],
       beforeD := [0], afterD := [0] }]
    (by norm_num [get_sale_groups_by_homicide, knn_distance, radius_neighbors, mkMatchGroup,
      saleTime, sqDist, sqrtLeB, afterTest, beforeTest, FT_PER_MILE,
      SECONDS_PER_DAY, tableXY, List.enum, List.enumFrom, List.filterMap_cons,
      List.filter_cons])
    0 _ rfl _ rfl 1 _ rfl
    (by norm_num [radiusCandidates, knn_distance, radius_neighbors, tableXY, sqDist, sqrtLeB,
      FT_PER_MILE, List.enum, List.enumFrom, List.filterMap_cons])

/-- Counterexample to C3: the reference point `(3, 4)` lies at Euclidean
distance exactly `5` from the query point `(0, 0)` (`sqDist = 25 = 5^2`), yet
the radius-5 query returns it — the underlying radius search includes the
boundary, so the claimed strict inequality fails. -/
theorem knn_distance_boundary_included :
    knn_distance [(0, 0)] [(3, 4)] 5 = .ok [[(0, 25)]] ∧
    sqDist (0, 0) (3, 4) = 5 ^ 2 := by
  constructor
  · norm_num [knn_distance, radius_neighbors, radius_neighbors, sqDist, sqrtLeB, List.enum,
      List.enumFrom, List.filterMap_cons]
  · norm_num [sqDist]

/-- C3 as amended: a successful radius query returns, for query point `i`,
exactly the reference points whose distance is at most `r` (`d2 ≤ r^2` on
squared distances, the boundary included); in particular every point strictly
within `r` appears. -/
theorem knn_distance_radius_iff
    (homs sales : List (ℚ × ℚ)) (r : ℚ) (i : ℕ) (q : ℚ × ℚ)
    (out : List (List (ℕ × ℚ))) (nbrs : List (ℕ × ℚ))
    (hok : knn_distance homs sales r = .ok out)
    (hn : out.get? i = some nbrs)
    (hq : homs.get? i = some q) (j : ℕ) (d2 : ℚ) :
    ((j, d2) ∈ nbrs ↔
      ∃ p, sales.get? j = some p ∧ d2 = sqDist q p ∧ 0 ≤ r ∧ d2 ≤ r ^ 2) := by
  rw [knn_distance_ok_elim hok] at hn
  unfold radius_neighbors at hn
  rw [List.get?_map, hq] at hn
  cases hn
  constructor
  · intro hmem
    rcases List.mem_filterMap.1 hmem with ⟨⟨j', p⟩, hjp, hsome⟩
    by_cases hle : sqrtLeB (sqDist q p) r = true
    · rw [if_pos hle] at hsome
      cases hsome
      refine ⟨p, ?_, rfl, ?_⟩
      · rw [List.get?_eq_getElem?]
        exact List.mk_mem_enum_iff_getElem?.1 hjp
      · simpa [sqrtLeB] using hle
    · rw [if_neg hle] at hsome
      cases hsome
  · rintro ⟨p, hp, rfl, hr, hd2⟩
    refine List.mem_filterMap.2 ⟨(j, p), ?_, ?_⟩
    · rw [List.mk_mem_enum_iff_getElem?, ← List.get?_eq_getElem?]
      exact hp
    · rw [if_pos]
      simp [sqrtLeB, hr, hd2]

/-- Witness for `knn_distance_radius_iff`: the point `(3, 0)` at distance
`3 < 5` from the origin appears in the radius-5 query with squared
distance 9. -/
theorem knn_distance_radius_iff_witness :
    ((0, 9) ∈ ([(0, 9)] : List (ℕ × ℚ)) ↔
      ∃ p, ([((3 : ℚ), (0 : ℚ))] : List (ℚ × ℚ)).get? 0 = some p ∧
        (9 : ℚ) = sqDist (0, 0) p ∧ (0 : ℚ) ≤ 5 ∧ (9 : ℚ) ≤ 5 ^ 2) :=
  knn_distance_radius_iff [(0, 0)] [(3, 0)] 5 0 (0, 0) [[(0, 9)]] [(0, 9)]
    (by norm_num [knn_distance, radius_neighbors, radius_neighbors, sqDist, sqrtLeB, List.enum,
      List.enumFrom, List.filterMap_cons])
    rfl rfl 0 9

/-- Counterexample to C6: a homicide row with a missing geometry makes the
matcher fail with an `AssertionError` (a bare `assert`), not with the
`ValidationError` the claim names. -/
theorem eventMatcher_missing_geometry_assertion :
    get_sale_groups_by_homicide ⟨[⟨none, 0⟩], true⟩ ⟨[], true⟩ 1 (20, 20) =
      .error .assertionError ∧
    (Except.error Err.assertionError : Except Err (List MatchGroup)) ≠
      .error .validationError := by
  constructor
  · rfl
  · intro h
    cases h

/-- C6 as amended: the matcher fails with an `AssertionError` (a bare
`assert`, checked before anything else) exactly when some geometry is missing
or a `time_offset` column is absent; with the preconditions satisfied it
fails with the `ValueError` of the underlying neighbor search exactly when
either table is empty, and returns normally exactly otherwise.  Its only
errors are `AssertionError` and `ValueError` — never a `ValidationError`. -/
theorem eventMatcher_validation
    (homicides : HomTable) (sales : SaleTable) (r : ℚ) (w : ℚ × ℚ) :
    (get_sale_groups_by_homicide homicides sales r w = .error .assertionError ↔
      ¬((sales.rows.all fun s => s.geometry.isSome) = true ∧
        (homicides.rows.all fun h => h.geometry.isSome) = true ∧
        sales.has_time_offset = true ∧ homicides.has_time_offset = true)) ∧
    (((sales.rows.all fun s => s.geometry.isSome) = true ∧
        (homicides.rows.all fun h => h.geometry.isSome) = true ∧
        sales.has_time_offset = true ∧ homicides.has_time_offset = true) →
      ((get_sale_groups_by_homicide homicides sales r w = .error .valueError ↔
          (sales.rows = [] ∨ homicides.rows = [])) ∧
       ((∃ gs, get_sale_groups_by_homicide homicides sales r w = .ok gs) ↔
          (sales.rows ≠ [] ∧ homicides.rows ≠ [])))) ∧
    (∀ e, get_sale_groups_by_homicide homicides sales r w = .error e →
      e = .assertionError ∨ e = .valueError) := by
  have hfail : ¬((sales.rows.all fun s => s.geometry.isSome) = true ∧
        (homicides.rows.all fun h => h.geometry.isSome) = true ∧
        sales.has_time_offset = true ∧ homicides.has_time_offset = true) →
      get_sale_groups_by_homicide homicides sales r w =
        .error .assertionError := by
    intro hne
    simp only [get_sale_groups_by_homicide]
    by_cases c1 : (sales.rows.all fun s => s.geometry.isSome) = true
    · rw [if_neg (not_not_intro c1)]
      by_cases c2 : (homicides.rows.all fun h => h.geometry.isSome) = true
      · rw [if_neg (not_not_intro c2)]
        by_cases c3 : sales.has_time_offset = true
        · rw [if_neg (not_not_intro c3)]
          by_cases c4 : homicides.has_time_offset = true
          · exact absurd ⟨c1, c2, c3, c4⟩ hne
          · rw [if_pos c4]
        · rw [if_pos c3]
      · rw [if_pos c2]
    · rw [if_pos c1]
  have hsucc : ((sales.rows.all fun s => s.geometry.isSome) = true ∧
        (homicides.rows.all fun h => h.geometry.isSome) = true ∧
        sales.has_time_offset = true ∧ homicides.has_time_offset = true) →
      get_sale_groups_by_homicide homicides sales r w =
        (if sales.rows = [] ∨ homicides.rows = [] then .error .valueError
         else .ok ((homicides.rows.zip
            (radius_neighbors (homicides.rows.map fun hr => hr.geometry.getD (0, 0))
              (sales.rows.map fun sr => sr.geometry.getD (0, 0))
              (r * FT_PER_MILE))).map
            fun hn => mkMatchGroup sales w hn.1 hn.2)) := by
    rintro ⟨c1, c2, c3, c4⟩
    simp only [get_sale_groups_by_homicide, knn_distance]
    rw [if_neg (not_not_intro c1), if_neg (not_not_intro c2),
      if_neg (not_not_intro c3), if_neg (not_not_intro c4)]
    by_cases he : sales.rows = [] ∨ homicides.rows = []
    · rw [if_pos he]
      have hb : ((sales.rows.map fun sr => sr.geometry.getD (0, 0)).isEmpty ||
          (homicides.rows.map fun hr => hr.geometry.getD (0, 0)).isEmpty)
          = true := by
        rcases he with h | h <;> simp [h]
      rw [if_pos hb]
    · rw [if_neg he]
      obtain ⟨he1, he2⟩ := not_or.mp he
      have hb : ¬(((sales.rows.map fun sr => sr.geometry.getD (0, 0)).isEmpty ||
          (homicides.rows.map fun hr => hr.geometry.getD (0, 0)).isEmpty)
          = true) := by
        simp [he1, he2]
      rw [if_neg hb]
  refine ⟨⟨?_, hfail⟩, ?_, ?_⟩
  · intro herr
    intro hpre
    rw [hsucc hpre] at herr
    by_cases he : sales.rows = [] ∨ homicides.rows = []
    · rw [if_pos he] at herr
      cases herr
    · rw [if_neg he] at herr
      cases herr
  · intro hpre
    rw [hsucc hpre]
    constructor
    · by_cases he : sales.rows = [] ∨ homicides.rows = []
      · rcases he with h | h <;> simp [h]
      · obtain ⟨he1, he2⟩ := not_or.mp he
        simp [if_neg he, he1, he2]
    · by_cases he : sales.rows = [] ∨ homicides.rows = []
      · rcases he with h | h <;> simp [h]
      · obtain ⟨he1, he2⟩ := not_or.mp he
        simp [if_neg he, he1, he2]
  · intro e herr
    by_cases hpre : ((sales.rows.all fun s => s.geometry.isSome) = true ∧
        (homicides.rows.all fun h => h.geometry.isSome) = true ∧
        sales.has_time_offset = true ∧ homicides.has_time_offset = true)
    · rw [hsucc hpre] at herr
      by_cases he : sales.rows = [] ∨ homicides.rows = []
      · rw [if_pos he] at herr
        exact Or.inr (Except.error.inj herr).symm
      · rw [if_neg he] at herr
        cases herr
    · rw [hfail hpre] at herr
      exact Or.inl (Except.error.inj herr).symm

/-- Witness for `eventMatcher_validation`: a well-formed homicide table and
an empty sale table — the preconditions hold, yet the run fails with the
neighbor search's `ValueError`. -/
theorem eventMatcher_validation_witness :
    (get_sale_groups_by_homicide ⟨[⟨some (0, 0), 0⟩], true⟩ ⟨[], true⟩
        1 (20, 20) = .error .valueError ↔
      (([] : List SaleRow) = [] ∨ ([⟨some (0, 0), 0⟩] : List HomRow) = [])) ∧
    ((∃ gs, get_sale_groups_by_homicide ⟨[⟨some (0, 0), 0⟩], true⟩ ⟨[], true⟩
        1 (20, 20) = .ok gs) ↔
      (([] : List SaleRow) ≠ [] ∧ ([⟨some (0, 0), 0⟩] : List HomRow) ≠ [])) :=
  (eventMatcher_validation ⟨[⟨some (0, 0), 0⟩], true⟩ ⟨[], true⟩ 1 (20, 20)).2.1
    (by decide)

/-!
## `add_spacetime_flags` (causality.py lines 97–230)

The flag columns the function creates are named
`spacetime_flag_{tag}_{distance}`; the embedding keys a column by the pair
`(tag, distance)` — the rendered string is a bijective image of that pair for
the distances a single call uses.  A flag table is the sales table's row
index set together with, per row, an association list from column key to the
(integer) flag value; `cols` lists the columns present, in creation order.
-/

/-- The `before` / `after` / `within` piece of a flag column name. -/
inductive Tag where
  | before
  | after
  | within
deriving DecidableEq, Repr

/-- A flag column key: the tag and the distance that appear in the rendered
column name. -/
abbrev ColKey := Tag × ℚ

/-- The flags table: the column keys present and, per surviving sale (by its
original positional index), the flag values. -/
structure FlagTable where
  cols : List ColKey
  rows : List (ℕ × List (ColKey × ℤ))
deriving DecidableEq, Repr

/-- Set key `k` to `v` in an association list (overwriting the first
occurrence, appending when absent). -/
def assocSet (k : ColKey) (v : ℤ) : List (ColKey × ℤ) → List (ColKey × ℤ)
  | [] => [(k, v)]
  | (k', v') :: rest =>
      if k' = k then (k, v) :: rest else (k', v') :: assocSet k v rest

/-- The association list of row `i`, when the row is present. -/
def rowOf (T : FlagTable) (i : ℕ) : Option (List (ColKey × ℤ)) :=
  (T.rows.find? fun r => r.1 == i).map Prod.snd

/-- The value of column `k` in row `i` (`none` when the row or the column is
absent). -/
def colVal (T : FlagTable) (i : ℕ) (k : ColKey) : Option ℤ :=
  if k ∈ T.cols then (rowOf T i).bind (fun r => r.lookup k) else none

/-- `df[col] = <value computed from the row>`: create or overwrite a column
(pandas column assignment). -/
def setCol (T : FlagTable) (k : ColKey) (f : ℕ → List (ColKey × ℤ) → ℤ) :
    FlagTable :=
  { cols := if k ∈ T.cols then T.cols else T.cols ++ [k]
    rows := T.rows.map fun r => (r.1, assocSet k (f r.1 r.2) r.2) }

/-- `df.loc[subset, col] = 1` (causality.py line 171). -/
def setOnes (T : FlagTable) (k : ColKey) (subset : List ℕ) : FlagTable :=
  { T with rows := T.rows.map fun r =>
      if r.1 ∈ subset then (r.1, assocSet k 1 r.2) else r }

/-- Lines 148–153: copy the sales (row indices `0 .. n-1`) and create each
`spacetime_flag_{before|after}_{d}` column with default value `0`, for `d`
ranging over `distances[1:]`. -/
def initFlags (n : ℕ) (dtail : List ℚ) : FlagTable :=
  dtail.foldl
    (fun T d =>
      setCol (setCol T (Tag.before, d) (fun _ _ => 0)) (Tag.after, d)
        (fun _ _ => 0))
    { cols := [], rows := (List.range n).map fun i => (i, []) }

/-- The `(indices, dists)` pairs of one direction of a match group (the
source carries them as two aligned arrays; the embedding zips them). -/
def tagPairs (g : MatchGroup) : Tag → List (ℕ × ℚ)
  | .before => g.beforeIdx.zip g.beforeD
  | .after => g.afterIdx.zip g.afterD
  | .within => []

/-- One `.loc` update of the flag loop (causality.py lines 162–171): for band
`j` and direction `tag`, the rows whose match distance `D` satisfies
`distances[j]*5280 ≤ D < distances[j+1]*5280` get
`spacetime_flag_{tag}_{distances[j+1]}` set to 1. -/
def bandUpdate (distances : List ℚ) (g : MatchGroup) (j : ℕ) (tag : Tag) :
    ColKey × List ℕ :=
  ((tag, distances.getD (j + 1) 0),
   ((tagPairs g tag).filter fun pd =>
      sqrtLe (distances.getD j 0 * FT_PER_MILE) pd.2 &&
      sqrtLt pd.2 (distances.getD (j + 1) 0 * FT_PER_MILE)).map Prod.fst)

/-- All `.loc` updates of the triple loop over groups, bands and directions,
in execution order. -/
def bandUpdates (distances : List ℚ) (groups : List MatchGroup) :
    List (ColKey × List ℕ) :=
  groups.flatMap fun g =>
    (List.range (distances.length - 1)).flatMap fun j =>
      [Tag.before, Tag.after].map fun tag => bandUpdate distances g j tag

/-- Fold the `.loc` updates over the table. -/
def applyUpdates (T : FlagTable) (ups : List (ColKey × List ℕ)) : FlagTable :=
  ups.foldl (fun T u => setOnes T u.1 u.2) T

/-- Lines 175–186: drop sales whose `sale_date` is within `windows[0]` days
of the earliest or `windows[1]` days of the latest sale date (comparisons
against the min/max of the dates of the rows currently present; with no rows
every comparison is vacuously false, as with pandas' NaT). -/
def windowDates (sales : SaleTable) (T : FlagTable) : List ℚ :=
  T.rows.filterMap fun r => (sales.rows.get? r.1).map SaleRow.sale_date

def windowFilter (sales : SaleTable) (w : ℚ × ℚ) (T : FlagTable) : FlagTable :=
  { T with rows :=
      match (windowDates sales T).min?, (windowDates sales T).max? with
      | some dmin, some dmax =>
          T.rows.filter fun r =>
            match sales.rows.get? r.1 with
            | some s =>
                decide (dmin + w.1 * SECONDS_PER_DAY ≤ s.sale_date) &&
                decide (s.sale_date ≤ dmax - w.2 * SECONDS_PER_DAY)
            | none => false
      | _, _ => [] }

/-- `.any(axis=1)` over the given columns: some value present and nonzero. -/
def anyPos (r : List (ColKey × ℤ)) (ks : List ColKey) : Bool :=
  ks.any fun k =>
    match r.lookup k with
    | some v => decide (v ≠ 0)
    | none => false

/-- `.all(axis=1)` over the given columns: every value present and nonzero. -/
def allPos (r : List (ColKey × ℤ)) (ks : List ColKey) : Bool :=
  ks.all fun k =>
    match r.lookup k with
    | some v => decide (v ≠ 0)
    | none => false

/-- Lines 189–192: `spacetime_flag_within_{d} = df[[after, before]].any(axis=1)`
for each `d` in `distances[1:]`. -/
def addWithin (dtail : List ℚ) (T : FlagTable) : FlagTable :=
  dtail.foldl
    (fun T d =>
      setCol T (Tag.within, d) fun _ r =>
        if anyPos r [(Tag.after, d), (Tag.before, d)] then 1 else 0)
    T

/-- Lines 199–212: for each distance in `D`, drop the rows whose `after` and
`before` flags are both set. -/
def dedupFilter (ds : List ℚ) (T : FlagTable) : FlagTable :=
  ds.foldl
    (fun T d =>
      { T with rows := T.rows.filter fun r =>
          ! allPos r.2 [(Tag.after, d), (Tag.before, d)] })
    T

/-- Lines 215–219: drop the rows whose `within` flags sum to zero. -/
def trimFilter (dtail : List ℚ) (T : FlagTable) : FlagTable :=
  { T with rows := T.rows.filter fun r =>
      decide ((dtail.map fun d => ((r.2.lookup (Tag.within, d)).getD 0)).sum ≠ 0) }

/-- Lines 222–228: `df.drop(labels=toRemove, axis=1)` — remove the listed
columns (the caller checks they exist; pandas raises `KeyError` otherwise). -/
def dropCols (T : FlagTable) (ks : List ColKey) : FlagTable :=
  { cols := T.cols.filter fun c => decide (c ∉ ks)
    rows := T.rows.map fun r => (r.1, r.2.filter fun kv => decide (kv.1 ∉ ks)) }

/-- Stages 1–3 of `add_spacetime_flags` (causality.py lines 148–192): copy
the sales with zeroed flag columns, run the triple flag loop, optionally
window the sales by date, then add the `within` columns.  `distances` is the
already-normalized list (leading 0 prepended). -/
def maybeWindow (sales : SaleTable) (windows : ℚ × ℚ) (window_sales : Bool)
    (T : FlagTable) : FlagTable :=
  if window_sales then windowFilter sales windows T else T

def flagStage (sales : SaleTable) (distances : List ℚ) (windows : ℚ × ℚ)
    (window_sales : Bool) (groups : List MatchGroup) : FlagTable :=
  let dtail := distances.tail
  let T1 := applyUpdates (initFlags sales.rows.length dtail)
    (bandUpdates distances groups)
  addWithin dtail (maybeWindow sales windows window_sales T1)

/-- Stages 4–6 of `add_spacetime_flags` (causality.py lines 198–230), run
only with `add_interactions=True`: duplicate exclusion, max-distance
trimming, and removal of the `before` columns plus the outermost-distance
columns. -/
def interactionStage (T3 : FlagTable) (dtail : List ℚ) (dlast : ℚ)
    (exclude_duplicates trim_by_max_distance : Bool) : Except Err FlagTable :=
  let D := if trim_by_max_distance then dtail.dropLast else dtail
  let T4 := if exclude_duplicates then dedupFilter D T3 else T3
  let T5 := if trim_by_max_distance then trimFilter dtail T4 else T4
  let toRemove := (dtail.map fun d => (Tag.before, d)) ++
    (if trim_by_max_distance then
      [(Tag.after, dlast), (Tag.before, dlast), (Tag.within, dlast)]
    else [])
  if toRemove.all (fun k => decide (k ∈ T5.cols)) then
    .ok (dropCols T5 toRemove)
  else .error .keyError

/-- Embedding of `add_spacetime_flags(homicides, sales, distances, windows,
window_sales, add_interactions, exclude_duplicates, trim_by_max_distance)`
(causality.py lines 97–230).  The `distances` argument is taken as a list
(the scalar overload wraps it first); an empty list fails at `distances[0]`
with `IndexError`. -/
def add_spacetime_flags (homicides : HomTable) (sales : SaleTable)
    (distances0 : List ℚ) (windows : ℚ × ℚ)
    (window_sales : Bool := true) (add_interactions : Bool := true)
    (exclude_duplicates : Bool := true) (trim_by_max_distance : Bool := true) :
    Except Err FlagTable :=
  match distances0 with
  | [] => .error .indexError
  | d0 :: _ =>
    let distances := if d0 ≠ 0 then 0 :: distances0 else distances0
    let max_distance := (distances.max?).getD 0
    match get_sale_groups_by_homicide homicides sales max_distance windows with
    | .error e => .error e
    | .ok groups =>
      let T3 := flagStage sales distances windows window_sales groups
      if ¬ add_interactions then .ok T3
      else
        interactionStage T3 distances.tail ((distances.getLast?).getD 0)
          exclude_duplicates trim_by_max_distance

/-!
### Observation lemmas for the flag-table operations
-/

/-- The row association list looked up at a key. -/
def rowLook (T : FlagTable) (i : ℕ) (k : ColKey) : Option ℤ :=
  (rowOf T i).bind fun r => r.lookup k

theorem colVal_eq_rowLook {T : FlagTable} {i : ℕ} {k : ColKey}
    (hk : k ∈ T.cols) : colVal T i k = rowLook T i k := by
  simp [colVal, rowLook, hk]

theorem lookup_cons_eq_if (a k : ColKey) (v : ℤ) (l : List (ColKey × ℤ)) :
    List.lookup a ((k, v) :: l) = if a = k then some v else List.lookup a l := by
  by_cases h : a = k
  · subst h
    simp [List.lookup]
  · have hb : (a == k) = false := by simp [h]
    simp [List.lookup, hb, h]

theorem lookup_assocSet_self (k : ColKey) (v : ℤ) (l : List (ColKey × ℤ)) :
    (assocSet k v l).lookup k = some v := by
  induction l with
  | nil => simp [assocSet, lookup_cons_eq_if]
  | cons kv rest ih =>
      rcases kv with ⟨k', v'⟩
      by_cases h : k' = k
      · simp [assocSet, h, lookup_cons_eq_if]
      · simp [assocSet, h, lookup_cons_eq_if, Ne.symm h, ih]

theorem lookup_assocSet_ne (k k' : ColKey) (v : ℤ) (l : List (ColKey × ℤ))
    (h : k' ≠ k) : (assocSet k v l).lookup k' = l.lookup k' := by
  induction l with
  | nil => simp [assocSet, lookup_cons_eq_if, h]
  | cons kv rest ih =>
      rcases kv with ⟨k1, v1⟩
      by_cases h1 : k1 = k
      · subst h1
        simp [assocSet, lookup_cons_eq_if, h]
      · by_cases h2 : k' = k1
        · subst h2
          simp [assocSet, h1, lookup_cons_eq_if]
        · simp [assocSet, h1, lookup_cons_eq_if, h2, ih]

/-- `find?` on a key-preserving row transformation. -/
theorem find?_map_keyfun (g : (ℕ × List (ColKey × ℤ)) → (ℕ × List (ColKey × ℤ)))
    (hg : ∀ r, (g r).1 = r.1) (l : List (ℕ × List (ColKey × ℤ))) (i : ℕ) :
    (l.map g).find? (fun r => r.1 == i) =
      (l.find? (fun r => r.1 == i)).map g := by
  induction l with
  | nil => simp
  | cons a l ih =>
      by_cases h : a.1 = i
      · simp [List.find?_cons, hg, h]
      · simp [List.find?_cons, hg, h, ih]

theorem rowOf_setOnes (T : FlagTable) (k : ColKey) (sub : List ℕ) (i : ℕ) :
    rowOf (setOnes T k sub) i =
      (rowOf T i).map fun r => if i ∈ sub then assocSet k 1 r else r := by
  unfold rowOf setOnes
  rw [find?_map_keyfun (fun r => if r.1 ∈ sub then (r.1, assocSet k 1 r.2) else r)
    (fun r => by by_cases h : r.1 ∈ sub <;> simp [h])]
  cases hf : T.rows.find? (fun r => r.1 == i) with
  | none => simp
  | some r =>
      have hr : r.1 = i := by
        have := List.find?_some hf
        simpa [beq_iff_eq] using this
      by_cases h : i ∈ sub <;> simp [hr, h]

theorem rowOf_setCol (T : FlagTable) (k : ColKey)
    (f : ℕ → List (ColKey × ℤ) → ℤ) (i : ℕ) :
    rowOf (setCol T k f) i = (rowOf T i).map fun r => assocSet k (f i r) r := by
  unfold rowOf setCol
  rw [find?_map_keyfun (fun r => (r.1, assocSet k (f r.1 r.2) r.2)) (fun r => rfl)]
  cases hf : T.rows.find? (fun r => r.1 == i) with
  | none => simp
  | some r =>
      have hr : r.1 = i := by
        have := List.find?_some hf
        simpa [beq_iff_eq] using this
      simp [hr]

theorem rowLook_setOnes (T : FlagTable) (k k' : ColKey) (sub : List ℕ) (i : ℕ) :
    rowLook (setOnes T k sub) i k' =
      if i ∈ sub ∧ k' = k then (rowOf T i).map fun _ => (1 : ℤ)
      else rowLook T i k' := by
  unfold rowLook
  rw [rowOf_setOnes]
  cases hr : rowOf T i with
  | none => simp [apply_ite]
  | some r =>
      by_cases hs : i ∈ sub
      · by_cases hk : k' = k
        · simp [hs, hk, lookup_assocSet_self]
        · simp [hs, hk, lookup_assocSet_ne _ _ _ _ hk]
      · simp [hs]

theorem rowLook_setCol (T : FlagTable) (k k' : ColKey)
    (f : ℕ → List (ColKey × ℤ) → ℤ) (i : ℕ) :
    rowLook (setCol T k f) i k' =
      if k' = k then (rowOf T i).map fun r => f i r
      else rowLook T i k' := by
  unfold rowLook
  rw [rowOf_setCol]
  cases hr : rowOf T i with
  | none => simp [apply_ite]
  | some r =>
      by_cases hk : k' = k
      · simp [hk, lookup_assocSet_self]
      · simp [hk, lookup_assocSet_ne _ _ _ _ hk]

theorem isSome_rowOf_setOnes (T : FlagTable) (k : ColKey) (sub : List ℕ)
    (i : ℕ) : (rowOf (setOnes T k sub) i).isSome = (rowOf T i).isSome := by
  rw [rowOf_setOnes]
  cases rowOf T i <;> simp

theorem isSome_rowOf_setCol (T : FlagTable) (k : ColKey)
    (f : ℕ → List (ColKey × ℤ) → ℤ) (i : ℕ) :
    (rowOf (setCol T k f) i).isSome = (rowOf T i).isSome := by
  rw [rowOf_setCol]
  cases rowOf T i <;> simp

theorem cols_setOnes (T : FlagTable) (k : ColKey) (sub : List ℕ) :
    (setOnes T k sub).cols = T.cols := rfl

theorem mem_cols_setCol (T : FlagTable) (k k' : ColKey)
    (f : ℕ → List (ColKey × ℤ) → ℤ) :
    k' ∈ (setCol T k f).cols ↔ k' ∈ T.cols ∨ k' = k := by
  unfold setCol
  by_cases h : k ∈ T.cols
  · simp only [if_pos h]
    constructor
    · exact fun hm => Or.inl hm
    · rintro (hm | rfl)
      · exact hm
      · exact h
  · simp [if_neg h, List.mem_append]

/-- Well-formedness: the row indices of a flag table are distinct (they are
created from `range` and only filtered or value-mapped afterwards). -/
def WF (T : FlagTable) : Prop := (T.rows.map Prod.fst).Nodup

theorem option_map_one_congr {a b : Option (List (ColKey × ℤ))}
    (h : a.isSome = b.isSome) :
    a.map (fun _ => (1 : ℤ)) = b.map (fun _ => (1 : ℤ)) := by
  cases a <;> cases b <;> simp_all

theorem option_map_zero_congr {a b : Option (List (ColKey × ℤ))}
    (h : a.isSome = b.isSome) :
    a.map (fun _ => (0 : ℤ)) = b.map (fun _ => (0 : ℤ)) := by
  cases a <;> cases b <;> simp_all

theorem find?_key_of_mem {l : List (ℕ × List (ColKey × ℤ))}
    (hnd : (l.map Prod.fst).Nodup) {i : ℕ} {r : List (ColKey × ℤ)}
    (hmem : (i, r) ∈ l) : l.find? (fun s => s.1 == i) = some (i, r) := by
  induction l with
  | nil => cases hmem
  | cons a l ih =>
      simp only [List.map_cons, List.nodup_cons] at hnd
      rcases List.mem_cons.1 hmem with h | h
      · subst h
        simp [List.find?_cons]
      · have ha : a.1 ≠ i := by
          intro hc
          exact hnd.1 (hc ▸ List.mem_map.2 ⟨(i, r), h, rfl⟩)
        have hb : (a.1 == i) = false := by simp [ha]
        simp [List.find?_cons, hb]
        exact ih hnd.2 h

theorem rowOf_eq_some_iff {T : FlagTable} (hWF : WF T) {i : ℕ}
    {r : List (ColKey × ℤ)} :
    rowOf T i = some r ↔ (i, r) ∈ T.rows := by
  unfold rowOf
  constructor
  · intro h
    rcases Option.map_eq_some'.1 h with ⟨⟨i', r'⟩, hfind, hsnd⟩
    have hkey : i' = i := by simpa [beq_iff_eq] using List.find?_some hfind
    have hmem := List.mem_of_find?_eq_some hfind
    cases hsnd
    rw [hkey] at hmem
    exact hmem
  · intro hmem
    rw [find?_key_of_mem hWF hmem]
    rfl

theorem rowOf_eq_none_iff {T : FlagTable} {i : ℕ} :
    rowOf T i = none ↔ ∀ r, (i, r) ∉ T.rows := by
  unfold rowOf
  rw [Option.map_eq_none', List.find?_eq_none]
  constructor
  · intro h r hmem
    have := h (i, r) hmem
    simp at this
  · intro h a hmem hkey
    rcases a with ⟨i', r⟩
    have : i' = i := by simpa [beq_iff_eq] using hkey
    subst this
    exact h r hmem

theorem wf_filter {T : FlagTable} (hWF : WF T)
    (p : (ℕ × List (ColKey × ℤ)) → Bool) (c : List ColKey) :
    WF ⟨c, T.rows.filter p⟩ := by
  unfold WF at *
  exact List.Nodup.sublist ((List.filter_sublist T.rows).map Prod.fst) hWF

theorem wf_map_keyfun {T : FlagTable}
    (g : (ℕ × List (ColKey × ℤ)) → (ℕ × List (ColKey × ℤ)))
    (hg : ∀ r, (g r).1 = r.1) (hWF : WF T) (c : List ColKey) :
    WF ⟨c, T.rows.map g⟩ := by
  unfold WF at *
  have : (T.rows.map g).map Prod.fst = T.rows.map Prod.fst := by
    rw [List.map_map]
    exact List.map_congr_left fun r _ => hg r
  simpa [this]

theorem wf_setOnes {T : FlagTable} (hWF : WF T) (k : ColKey) (sub : List ℕ) :
    WF (setOnes T k sub) :=
  wf_map_keyfun (fun r => if r.1 ∈ sub then (r.1, assocSet k 1 r.2) else r)
    (fun r => by by_cases h : r.1 ∈ sub <;> simp [h]) hWF _

theorem wf_setCol {T : FlagTable} (hWF : WF T) (k : ColKey)
    (f : ℕ → List (ColKey × ℤ) → ℤ) : WF (setCol T k f) :=
  wf_map_keyfun (fun r => (r.1, assocSet k (f r.1 r.2) r.2)) (fun r => rfl)
    hWF _

/-- A filtered flag table keeps a row's contents when the row survives. -/
theorem rowOf_filter_rows {T : FlagTable} (hWF : WF T)
    (p : (ℕ × List (ColKey × ℤ)) → Bool) (c : List ColKey) (i : ℕ) :
    rowOf ⟨c, T.rows.filter p⟩ i =
      (rowOf T i).bind fun r => if p (i, r) then some r else none := by
  cases hr : rowOf T i with
  | none =>
      rw [rowOf_eq_none_iff] at hr
      have : rowOf ⟨c, T.rows.filter p⟩ i = none := by
        rw [rowOf_eq_none_iff]
        intro r hmem
        exact hr r (List.mem_of_mem_filter hmem)
      simp [this]
  | some r =>
      have hmem := (rowOf_eq_some_iff hWF).1 hr
      by_cases hp : p (i, r) = true
      · have : (i, r) ∈ T.rows.filter p := List.mem_filter.2 ⟨hmem, hp⟩
        rw [(rowOf_eq_some_iff (wf_filter hWF p c)).2 this]
        simp [hp]
      · have : rowOf ⟨c, T.rows.filter p⟩ i = none := by
          rw [rowOf_eq_none_iff]
          intro r' hmem'
          have hmem'' := List.mem_of_mem_filter hmem'
          have hr' := (rowOf_eq_some_iff hWF).2 hmem''
          rw [hr] at hr'
          cases hr'
          exact hp (List.of_mem_filter hmem')
        simp [this, hp]

/-!
### The update fold, the initialization fold and the `within` fold
-/

theorem cols_applyUpdates (T : FlagTable) (ups : List (ColKey × List ℕ)) :
    (applyUpdates T ups).cols = T.cols := by
  induction ups generalizing T with
  | nil => rfl
  | cons u ups ih => simpa [applyUpdates, List.foldl_cons] using ih (setOnes T u.1 u.2)

theorem isSome_rowOf_applyUpdates (T : FlagTable) (ups : List (ColKey × List ℕ))
    (i : ℕ) : (rowOf (applyUpdates T ups) i).isSome = (rowOf T i).isSome := by
  induction ups generalizing T with
  | nil => rfl
  | cons u ups ih =>
      calc (rowOf (applyUpdates (setOnes T u.1 u.2) ups) i).isSome
          = (rowOf (setOnes T u.1 u.2) i).isSome := ih _
        _ = (rowOf T i).isSome := isSome_rowOf_setOnes _ _ _ _

theorem wf_applyUpdates {T : FlagTable} (hWF : WF T)
    (ups : List (ColKey × List ℕ)) : WF (applyUpdates T ups) := by
  induction ups generalizing T with
  | nil => exact hWF
  | cons u ups ih => exact ih (wf_setOnes hWF u.1 u.2)

/-- The value of a flag column after the whole update fold: it is `1` when
some update touches the row at that column, and the prior value otherwise. -/
theorem rowLook_applyUpdates (T : FlagTable) (ups : List (ColKey × List ℕ))
    (i : ℕ) (k : ColKey) :
    rowLook (applyUpdates T ups) i k =
      if ∃ u ∈ ups, u.1 = k ∧ i ∈ u.2 then (rowOf T i).map fun _ => (1 : ℤ)
      else rowLook T i k := by
  induction ups generalizing T with
  | nil => simp [applyUpdates]
  | cons u ups ih =>
      have step : applyUpdates T (u :: ups) = applyUpdates (setOnes T u.1 u.2) ups := rfl
      rw [step, ih, rowLook_setOnes]
      by_cases h2 : ∃ v ∈ ups, v.1 = k ∧ i ∈ v.2
      · have hcons : ∃ v ∈ u :: ups, v.1 = k ∧ i ∈ v.2 := by
          rcases h2 with ⟨v, hv, hvp⟩
          exact ⟨v, List.mem_cons_of_mem u hv, hvp⟩
        rw [if_pos h2, if_pos hcons]
        exact option_map_one_congr (isSome_rowOf_setOnes _ _ _ _)
      · rw [if_neg h2]
        by_cases hu : u.1 = k ∧ i ∈ u.2
        · rw [if_pos ⟨hu.2, hu.1.symm⟩, if_pos ⟨u, List.mem_cons_self u ups, hu⟩]
        · have hnc : ¬ ∃ v ∈ u :: ups, v.1 = k ∧ i ∈ v.2 := by
            rintro ⟨v, hv, hvp⟩
            rcases List.mem_cons.1 hv with rfl | hv'
            · exact hu hvp
            · exact h2 ⟨v, hv', hvp⟩
          have hnu : ¬ (i ∈ u.2 ∧ k = u.1) := fun hc => hu ⟨hc.2.symm, hc.1⟩
          rw [if_neg hnu, if_neg hnc]

/-- The `(tag, distance)` keys of the flag columns created for
`distances[1:]`, in creation order. -/
def flagKeys (dtail : List ℚ) : List ColKey :=
  dtail.flatMap fun d => [(Tag.before, d), (Tag.after, d)]

/-- One step of the initialization loop. -/
def initStep (T : FlagTable) (d : ℚ) : FlagTable :=
  setCol (setCol T (Tag.before, d) fun _ _ => 0) (Tag.after, d) fun _ _ => 0

theorem initFlags_eq_foldl (n : ℕ) (dtail : List ℚ) :
    initFlags n dtail =
      dtail.foldl initStep ⟨[], (List.range n).map fun i => (i, [])⟩ := rfl

theorem mem_cols_initFold (dtail : List ℚ) (T : FlagTable) (k : ColKey) :
    (k ∈ (dtail.foldl initStep T).cols ↔ k ∈ T.cols ∨ k ∈ flagKeys dtail) := by
  induction dtail generalizing T with
  | nil => simp [flagKeys]
  | cons d rest ih =>
      rw [List.foldl_cons, ih]
      simp only [initStep, mem_cols_setCol, flagKeys, List.flatMap_cons,
        List.mem_append, List.mem_cons]
      constructor
      · rintro (((h | h) | h) | h)
        · exact Or.inl h
        · exact Or.inr (Or.inl (Or.inl h))
        · exact Or.inr (Or.inl (Or.inr (Or.inl h)))
        · exact Or.inr (Or.inr h)
      · rintro (h | ((h | h | h) | h))
        · exact Or.inl (Or.inl (Or.inl h))
        · exact Or.inl (Or.inl (Or.inr h))
        · exact Or.inl (Or.inr h)
        · cases h
        · exact Or.inr h

theorem isSome_rowOf_initFold (dtail : List ℚ) (T : FlagTable) (i : ℕ) :
    (rowOf (dtail.foldl initStep T) i).isSome = (rowOf T i).isSome := by
  induction dtail generalizing T with
  | nil => rfl
  | cons d rest ih =>
      rw [List.foldl_cons, ih]
      simp [initStep, isSome_rowOf_setCol]

theorem wf_initFold (dtail : List ℚ) {T : FlagTable} (hWF : WF T) :
    WF (dtail.foldl initStep T) := by
  induction dtail generalizing T with
  | nil => exact hWF
  | cons d rest ih => exact ih (wf_setCol (wf_setCol hWF _ _) _ _)

theorem mem_flagKeys_cons (k : ColKey) (d : ℚ) (rest : List ℚ) :
    k ∈ flagKeys (d :: rest) ↔
      k = (Tag.before, d) ∨ k = (Tag.after, d) ∨ k ∈ flagKeys rest := by
  simp [flagKeys]

theorem rowLook_initFold (dtail : List ℚ) (T : FlagTable) (i : ℕ) (k : ColKey) :
    rowLook (dtail.foldl initStep T) i k =
      if k ∈ flagKeys dtail then (rowOf T i).map fun _ => (0 : ℤ)
      else rowLook T i k := by
  induction dtail generalizing T with
  | nil => simp [flagKeys]
  | cons d rest ih =>
      rw [List.foldl_cons, ih]
      by_cases h2 : k ∈ flagKeys rest
      · rw [if_pos h2,
          if_pos ((mem_flagKeys_cons k d rest).2 (Or.inr (Or.inr h2)))]
        exact option_map_zero_congr (by simp [initStep, isSome_rowOf_setCol])
      · rw [if_neg h2]
        show rowLook (setCol (setCol T (Tag.before, d) fun _ _ => 0)
          (Tag.after, d) fun _ _ => 0) i k = _
        rw [rowLook_setCol, rowLook_setCol]
        by_cases hA : k = (Tag.after, d)
        · rw [if_pos hA,
            if_pos ((mem_flagKeys_cons k d rest).2 (Or.inr (Or.inl hA)))]
          exact option_map_zero_congr (by simp [isSome_rowOf_setCol])
        · rw [if_neg hA]
          by_cases hB : k = (Tag.before, d)
          · rw [if_pos hB,
              if_pos ((mem_flagKeys_cons k d rest).2 (Or.inl hB))]
          · have hn : ¬ k ∈ flagKeys (d :: rest) := by
              rw [mem_flagKeys_cons]
              rintro (h | h | h)
              · exact hB h
              · exact hA h
              · exact h2 h
            rw [if_neg hB, if_neg hn]

theorem rowOf_range_base (n : ℕ) (i : ℕ) :
    rowOf ⟨[], (List.range n).map fun j => (j, [])⟩ i =
      if i < n then some [] else none := by
  have key : ∀ (l : List ℕ),
      ((l.map fun j => (j, ([] : List (ColKey × ℤ)))).find?
        (fun r => r.1 == i)) = if i ∈ l then some (i, []) else none := by
    intro l
    induction l with
    | nil => simp
    | cons j l ih =>
        by_cases h : j = i
        · subst h
          simp [List.find?_cons]
        · have hb : (j == i) = false := by simp [h]
          have hij : ¬ i = j := fun hc => h hc.symm
          simp [List.find?_cons, hb, ih, hij]
  unfold rowOf
  rw [key (List.range n)]
  by_cases h : i < n
  · simp [List.mem_range, h]
  · simp [List.mem_range, h]

theorem wf_initFlags (n : ℕ) (dtail : List ℚ) : WF (initFlags n dtail) := by
  rw [initFlags_eq_foldl]
  apply wf_initFold
  unfold WF
  simp only [List.map_map]
  have hmm : (List.map (Prod.fst ∘ fun j => (j, ([] : List (ColKey × ℤ))))
      (List.range n)) = List.range n := by
    simp [Function.comp_def]
  rw [hmm]
  exact List.nodup_range n

theorem mem_cols_initFlags (n : ℕ) (dtail : List ℚ) (k : ColKey) :
    k ∈ (initFlags n dtail).cols ↔ k ∈ flagKeys dtail := by
  rw [initFlags_eq_foldl, mem_cols_initFold]
  simp

theorem isSome_rowOf_initFlags (n : ℕ) (dtail : List ℚ) (i : ℕ) :
    (rowOf (initFlags n dtail) i).isSome = decide (i < n) := by
  rw [initFlags_eq_foldl, isSome_rowOf_initFold, rowOf_range_base]
  by_cases h : i < n <;> simp [h]

theorem rowLook_initFlags (n : ℕ) (dtail : List ℚ) (i : ℕ) (k : ColKey)
    (hi : i < n) (hk : k ∈ flagKeys dtail) :
    rowLook (initFlags n dtail) i k = some 0 := by
  rw [initFlags_eq_foldl, rowLook_initFold, if_pos hk, rowOf_range_base,
    if_pos hi]
  rfl

/-!
### The `within` fold, the window filter, deduplication, trimming, dropping
-/

/-- One step of the `within` loop. -/
def withinStep (T : FlagTable) (d : ℚ) : FlagTable :=
  setCol T (Tag.within, d) fun _ r =>
    if anyPos r [(Tag.after, d), (Tag.before, d)] then 1 else 0

theorem addWithin_eq_foldl (dtail : List ℚ) (T : FlagTable) :
    addWithin dtail T = dtail.foldl withinStep T := rfl

theorem wf_addWithin (dtail : List ℚ) {T : FlagTable} (hWF : WF T) :
    WF (addWithin dtail T) := by
  rw [addWithin_eq_foldl]
  induction dtail generalizing T with
  | nil => exact hWF
  | cons d rest ih => exact ih (wf_setCol hWF _ _)

theorem isSome_rowOf_addWithin (dtail : List ℚ) (T : FlagTable) (i : ℕ) :
    (rowOf (addWithin dtail T) i).isSome = (rowOf T i).isSome := by
  rw [addWithin_eq_foldl]
  induction dtail generalizing T with
  | nil => rfl
  | cons d rest ih =>
      rw [List.foldl_cons, ih]
      simp [withinStep, isSome_rowOf_setCol]

theorem mem_cols_addWithin (dtail : List ℚ) (T : FlagTable) (k : ColKey) :
    k ∈ (addWithin dtail T).cols ↔
      k ∈ T.cols ∨ ∃ d ∈ dtail, k = (Tag.within, d) := by
  rw [addWithin_eq_foldl]
  induction dtail generalizing T with
  | nil => simp
  | cons d rest ih =>
      rw [List.foldl_cons, ih]
      simp only [withinStep, mem_cols_setCol, List.mem_cons]
      constructor
      · rintro ((h | h) | ⟨d', hd', h⟩)
        · exact Or.inl h
        · exact Or.inr ⟨d, Or.inl rfl, h⟩
        · exact Or.inr ⟨d', Or.inr hd', h⟩
      · rintro (h | ⟨d', hd' | hd', h⟩)
        · exact Or.inl (Or.inl h)
        · exact Or.inl (Or.inr (hd' ▸ h))
        · exact Or.inr ⟨d', hd', h⟩

theorem rowLook_addWithin_ne (dtail : List ℚ) (T : FlagTable) (i : ℕ)
    (k : ColKey) (hk : k.1 ≠ Tag.within) :
    rowLook (addWithin dtail T) i k = rowLook T i k := by
  rw [addWithin_eq_foldl]
  induction dtail generalizing T with
  | nil => rfl
  | cons d rest ih =>
      rw [List.foldl_cons, ih]
      show rowLook (setCol T (Tag.within, d) _) i k = _
      rw [rowLook_setCol, if_neg]
      intro hc
      rw [hc] at hk
      exact hk rfl

theorem wf_windowFilter (sales : SaleTable) (w : ℚ × ℚ) {T : FlagTable}
    (hWF : WF T) : WF (windowFilter sales w T) := by
  unfold windowFilter WF
  split
  · exact List.Nodup.sublist ((List.filter_sublist T.rows).map Prod.fst) hWF
  · simp

theorem cols_windowFilter (sales : SaleTable) (w : ℚ × ℚ) (T : FlagTable) :
    (windowFilter sales w T).cols = T.cols := rfl

theorem rowOf_windowFilter_some (sales : SaleTable) (w : ℚ × ℚ)
    {T : FlagTable} (hWF : WF T) {i : ℕ} {r : List (ColKey × ℤ)}
    (h : rowOf (windowFilter sales w T) i = some r) : rowOf T i = some r := by
  unfold windowFilter at h
  split at h
  · rw [rowOf_filter_rows hWF _ T.cols i] at h
    cases hr : rowOf T i with
    | none => rw [hr] at h; cases h
    | some r' =>
        rw [hr] at h
        simp only [Option.some_bind] at h
        split at h
        · cases h; rfl
        · cases h
  · have hnone : rowOf ⟨T.cols, ([] : List (ℕ × List (ColKey × ℤ)))⟩ i = none := by
      rw [rowOf_eq_none_iff]
      intro r hc
      cases hc
    rw [hnone] at h
    cases h

theorem wf_dedupFilter (ds : List ℚ) {T : FlagTable} (hWF : WF T) :
    WF (dedupFilter ds T) := by
  induction ds generalizing T with
  | nil => exact hWF
  | cons d rest ih =>
      exact ih (wf_filter hWF _ _)

theorem cols_dedupFilter (ds : List ℚ) (T : FlagTable) :
    (dedupFilter ds T).cols = T.cols := by
  induction ds generalizing T with
  | nil => rfl
  | cons d rest ih => exact ih _

/-- A row surviving the deduplication fold kept its contents, and no distance
in the list catches it with both flags set. -/
theorem rowOf_dedupFilter_some (ds : List ℚ) {T : FlagTable} (hWF : WF T)
    {i : ℕ} {r : List (ColKey × ℤ)}
    (h : rowOf (dedupFilter ds T) i = some r) :
    rowOf T i = some r ∧
      ∀ d ∈ ds, allPos r [(Tag.after, d), (Tag.before, d)] = false := by
  induction ds generalizing T with
  | nil => exact ⟨h, by simp⟩
  | cons d rest ih =>
      have step : dedupFilter (d :: rest) T =
          dedupFilter rest
            ⟨T.cols, T.rows.filter fun s =>
              ! allPos s.2 [(Tag.after, d), (Tag.before, d)]⟩ := rfl
      rw [step] at h
      rcases ih (wf_filter hWF _ _) h with ⟨hrow, hrest⟩
      rw [rowOf_filter_rows hWF _ _ i] at hrow
      cases hr : rowOf T i with
      | none => rw [hr] at hrow; cases hrow
      | some r' =>
          rw [hr] at hrow
          simp only [Option.some_bind] at hrow
          split at hrow
          · cases hrow
            refine ⟨rfl, ?_⟩
            intro d' hd'
            rcases List.mem_cons.1 hd' with rfl | hd'
            · simpa using ‹(! allPos r [(Tag.after, d'), (Tag.before, d')]) = true›
            · exact hrest d' hd'
          · cases hrow

theorem wf_trimFilter (dtail : List ℚ) {T : FlagTable} (hWF : WF T) :
    WF (trimFilter dtail T) := wf_filter hWF _ _

theorem cols_trimFilter (dtail : List ℚ) (T : FlagTable) :
    (trimFilter dtail T).cols = T.cols := rfl

theorem rowOf_trimFilter_some (dtail : List ℚ) {T : FlagTable} (hWF : WF T)
    {i : ℕ} {r : List (ColKey × ℤ)}
    (h : rowOf (trimFilter dtail T) i = some r) : rowOf T i = some r := by
  unfold trimFilter at h
  rw [rowOf_filter_rows hWF _ _ i] at h
  cases hr : rowOf T i with
  | none => rw [hr] at h; cases h
  | some r' =>
      rw [hr] at h
      simp only [Option.some_bind] at h
      split at h
      · cases h; rfl
      · cases h

theorem lookup_filter_keys (l : List (ColKey × ℤ)) (ks : List ColKey)
    (k : ColKey) :
    (l.filter fun kv => decide (kv.1 ∉ ks)).lookup k =
      if k ∈ ks then none else l.lookup k := by
  induction l with
  | nil => simp
  | cons kv l ih =>
      rcases kv with ⟨k1, v1⟩
      rw [List.filter_cons]
      by_cases hk1 : k1 ∈ ks
      · rw [if_neg (by simp [hk1])]
        rw [ih]
        by_cases hk : k ∈ ks
        · rw [if_pos hk, if_pos hk]
        · have hkk : ¬ k = k1 := fun hcc => hk (hcc ▸ hk1)
          rw [if_neg hk, if_neg hk, lookup_cons_eq_if, if_neg hkk]
  
      · rw [if_pos (by simp [hk1])]
        by_cases hkk : k = k1
        · subst hkk
          rw [lookup_cons_eq_if, if_pos rfl, lookup_cons_eq_if, if_pos rfl,
            if_neg hk1]
        · rw [lookup_cons_eq_if, if_neg hkk, lookup_cons_eq_if, if_neg hkk, ih]

theorem wf_dropCols {T : FlagTable} (hWF : WF T) (ks : List ColKey) :
    WF (dropCols T ks) :=
  wf_map_keyfun (fun r => (r.1, r.2.filter fun kv => decide (kv.1 ∉ ks)))
    (fun r => rfl) hWF _

theorem rowOf_dropCols (T : FlagTable) (ks : List ColKey) (i : ℕ) :
    rowOf (dropCols T ks) i =
      (rowOf T i).map fun r => r.filter fun kv => decide (kv.1 ∉ ks) := by
  unfold rowOf dropCols
  rw [find?_map_keyfun (fun r => (r.1, r.2.filter fun kv => decide (kv.1 ∉ ks)))
    (fun r => rfl)]
  cases hf : T.rows.find? (fun r => r.1 == i) with
  | none => simp
  | some r => simp

theorem mem_cols_dropCols (T : FlagTable) (ks : List ColKey) (k : ColKey) :
    k ∈ (dropCols T ks).cols ↔ k ∈ T.cols ∧ k ∉ ks := by
  unfold dropCols
  simp [List.mem_filter]

theorem rowLook_dropCols (T : FlagTable) (ks : List ColKey) (i : ℕ)
    (k : ColKey) :
    rowLook (dropCols T ks) i k =
      if k ∈ ks then (rowOf T i).bind fun _ => none else rowLook T i k := by
  unfold rowLook
  rw [rowOf_dropCols]
  cases hr : rowOf T i with
  | none =>
      by_cases hks : k ∈ ks
      · simp [hks]
      · simp [hks]
  | some r =>
      simp only [Option.map_some', Option.some_bind]
      rw [lookup_filter_keys]

/-!
### The flag-setting stage characterized
-/

theorem sorted_getD_inj {l : List ℚ} (hs : l.Sorted (· < ·)) {a b : ℕ}
    (ha : a < l.length) (hb : b < l.length)
    (h : l.getD a 0 = l.getD b 0) : a = b := by
  rw [l.getD_eq_getElem 0 ha, l.getD_eq_getElem 0 hb] at h
  rcases lt_trichotomy a b with hab | hab | hab
  · have := hs.rel_get_of_lt (a := ⟨a, ha⟩) (b := ⟨b, hb⟩) hab
    simp only [List.get_eq_getElem] at this
    exact absurd h (ne_of_lt this)
  · exact hab
  · have := hs.rel_get_of_lt (a := ⟨b, hb⟩) (b := ⟨a, ha⟩) hab
    simp only [List.get_eq_getElem] at this
    exact absurd h.symm (ne_of_lt this)

theorem mem_bandUpdate_snd (distances : List ℚ) (g : MatchGroup) (j : ℕ)
    (tag : Tag) (i : ℕ) :
    i ∈ (bandUpdate distances g j tag).2 ↔
      ∃ d2, (i, d2) ∈ tagPairs g tag ∧
        sqrtLe (distances.getD j 0 * FT_PER_MILE) d2 = true ∧
        sqrtLt d2 (distances.getD (j + 1) 0 * FT_PER_MILE) = true := by
  unfold bandUpdate
  simp only [List.mem_map, List.mem_filter]
  constructor
  · rintro ⟨⟨i', d2⟩, ⟨hmem, hband⟩, rfl⟩
    simp only [Bool.and_eq_true] at hband
    exact ⟨d2, hmem, hband.1, hband.2⟩
  · rintro ⟨d2, hmem, h1, h2⟩
    exact ⟨(i, d2), ⟨hmem, by rw [Bool.and_eq_true]; exact ⟨h1, h2⟩⟩, rfl⟩

theorem mem_bandUpdates_iff (distances : List ℚ) (groups : List MatchGroup)
    (i : ℕ) (tag : Tag) (j : ℕ)
    (htag : tag = Tag.before ∨ tag = Tag.after)
    (hsorted : distances.Sorted (· < ·))
    (hj : j + 1 < distances.length) :
    (∃ u ∈ bandUpdates distances groups,
        u.1 = (tag, distances.getD (j + 1) 0) ∧ i ∈ u.2) ↔
      ∃ g ∈ groups, ∃ d2, (i, d2) ∈ tagPairs g tag ∧
        sqrtLe (distances.getD j 0 * FT_PER_MILE) d2 = true ∧
        sqrtLt d2 (distances.getD (j + 1) 0 * FT_PER_MILE) = true := by
  unfold bandUpdates
  constructor
  · rintro ⟨u, hu, hu1, hu2⟩
    rcases List.mem_flatMap.1 hu with ⟨g, hg, hu⟩
    rcases List.mem_flatMap.1 hu with ⟨j', hj', hu⟩
    rcases List.mem_map.1 hu with ⟨tag', htag', rfl⟩
    have hkey : (bandUpdate distances g j' tag').1 =
        (tag, distances.getD (j + 1) 0) := hu1
    unfold bandUpdate at hkey
    have htt : tag' = tag := congrArg Prod.fst hkey
    have hdd : distances.getD (j' + 1) 0 = distances.getD (j + 1) 0 :=
      congrArg Prod.snd hkey
    have hj'lt : j' + 1 < distances.length := by
      have := List.mem_range.1 hj'
      omega
    have hjj : j' = j := by
      have := sorted_getD_inj hsorted hj'lt hj hdd
      omega
    subst hjj
    subst htt
    rcases (mem_bandUpdate_snd distances g j' tag' i).1 hu2 with ⟨d2, h⟩
    exact ⟨g, hg, d2, h⟩
  · rintro ⟨g, hg, d2, hmem, h1, h2⟩
    refine ⟨bandUpdate distances g j tag, ?_, rfl, ?_⟩
    · refine List.mem_flatMap.2 ⟨g, hg, ?_⟩
      refine List.mem_flatMap.2 ⟨j, List.mem_range.2 (by omega), ?_⟩
      refine List.mem_map.2 ⟨tag, ?_, rfl⟩
      rcases htag with h | h <;> simp [h]
    · exact (mem_bandUpdate_snd distances g j tag i).2 ⟨d2, hmem, h1, h2⟩

theorem wf_maybeWindow (sales : SaleTable) (windows : ℚ × ℚ) (ws : Bool)
    {T : FlagTable} (hWF : WF T) : WF (maybeWindow sales windows ws T) := by
  unfold maybeWindow
  cases ws with
  | true => exact wf_windowFilter _ _ hWF
  | false => exact hWF

theorem cols_maybeWindow (sales : SaleTable) (windows : ℚ × ℚ) (ws : Bool)
    (T : FlagTable) : (maybeWindow sales windows ws T).cols = T.cols := by
  unfold maybeWindow
  cases ws with
  | true => exact cols_windowFilter _ _ _
  | false => rfl

/-- For a row surviving the (optional) windowing, the windowed table answers
every column lookup as the unwindowed one, and the row was present before. -/
theorem rowLook_maybeWindow_of_present (sales : SaleTable) (windows : ℚ × ℚ)
    (ws : Bool) {T : FlagTable} (hWF : WF T) {i : ℕ}
    (hpres : (rowOf (maybeWindow sales windows ws T) i).isSome = true)
    (k : ColKey) :
    rowLook (maybeWindow sales windows ws T) i k = rowLook T i k ∧
      (rowOf T i).isSome = true := by
  unfold maybeWindow at hpres ⊢
  cases ws with
  | false => exact ⟨rfl, hpres⟩
  | true =>
      simp only [if_pos] at hpres ⊢
      cases hr : rowOf (windowFilter sales windows T) i with
      | none => rw [hr] at hpres; cases hpres
      | some r =>
          have hup := rowOf_windowFilter_some sales windows hWF hr
          constructor
          · unfold rowLook
            rw [hr, hup]
          · rw [hup]
            rfl

theorem wf_flagStage (sales : SaleTable) (distances : List ℚ) (windows : ℚ × ℚ)
    (ws : Bool) (groups : List MatchGroup) :
    WF (flagStage sales distances windows ws groups) :=
  wf_addWithin _ (wf_maybeWindow _ _ _ (wf_applyUpdates (wf_initFlags _ _) _))

theorem mem_cols_flagStage (sales : SaleTable) (distances : List ℚ)
    (windows : ℚ × ℚ) (ws : Bool) (groups : List MatchGroup) (k : ColKey) :
    k ∈ (flagStage sales distances windows ws groups).cols ↔
      k ∈ flagKeys distances.tail ∨
        ∃ d ∈ distances.tail, k = (Tag.within, d) := by
  unfold flagStage
  rw [mem_cols_addWithin, cols_maybeWindow, cols_applyUpdates,
    mem_cols_initFlags]

/-- The flag value of a `before`/`after` column in the flag-building stage
(causality.py lines 148–192): for a row that survives the windowing, the
column `(tag, distances[j+1])` holds `1` exactly when some homicide's match
group contains the sale in that direction at a distance inside the band
`[distances[j]*5280, distances[j+1]*5280)`, and `0` otherwise. -/
theorem flagStage_band_value (sales : SaleTable) (distances : List ℚ)
    (windows : ℚ × ℚ) (ws : Bool) (groups : List MatchGroup) (i : ℕ)
    (tag : Tag) (j : ℕ)
    (htag : tag = Tag.before ∨ tag = Tag.after)
    (hsorted : distances.Sorted (· < ·))
    (hj : j + 1 < distances.length)
    (hpres : (rowOf (flagStage sales distances windows ws groups) i).isSome
      = true) :
    ((∃ g ∈ groups, ∃ d2, (i, d2) ∈ tagPairs g tag ∧
        sqrtLe (distances.getD j 0 * FT_PER_MILE) d2 = true ∧
        sqrtLt d2 (distances.getD (j + 1) 0 * FT_PER_MILE) = true) →
      colVal (flagStage sales distances windows ws groups) i
        (tag, distances.getD (j + 1) 0) = some 1) ∧
    ((¬ ∃ g ∈ groups, ∃ d2, (i, d2) ∈ tagPairs g tag ∧
        sqrtLe (distances.getD j 0 * FT_PER_MILE) d2 = true ∧
        sqrtLt d2 (distances.getD (j + 1) 0 * FT_PER_MILE) = true) →
      colVal (flagStage sales distances windows ws groups) i
        (tag, distances.getD (j + 1) 0) = some 0) := by
  have hkmem : (tag, distances.getD (j + 1) 0) ∈ flagKeys distances.tail := by
    have hd : distances.getD (j + 1) 0 ∈ distances.tail := by
      rcases distances with _ | ⟨d0, dt⟩
      · simp at hj
      · have hjlt : j < dt.length := by simpa using hj
        rw [show ((d0 :: dt).getD (j + 1) 0) = dt.getD j 0 from rfl]
        rw [dt.getD_eq_getElem 0 hjlt]
        exact List.getElem_mem hjlt
    rcases htag with h | h <;>
      · subst h
        unfold flagKeys
        rw [List.mem_flatMap]
        exact ⟨distances.getD (j + 1) 0, hd, by simp⟩
  have hcols : (tag, distances.getD (j + 1) 0) ∈
      (flagStage sales distances windows ws groups).cols :=
    (mem_cols_flagStage _ _ _ _ _ _).2 (Or.inl hkmem)
  have hwf1 : WF (applyUpdates (initFlags sales.rows.length distances.tail)
      (bandUpdates distances groups)) :=
    wf_applyUpdates (wf_initFlags _ _) _
  have hpres2 : (rowOf (maybeWindow sales windows ws
      (applyUpdates (initFlags sales.rows.length distances.tail)
        (bandUpdates distances groups))) i).isSome = true := by
    rw [← isSome_rowOf_addWithin distances.tail]
    exact hpres
  have hmw := rowLook_maybeWindow_of_present sales windows ws hwf1 hpres2
    (tag, distances.getD (j + 1) 0)
  have hval : colVal (flagStage sales distances windows ws groups) i
      (tag, distances.getD (j + 1) 0) =
      rowLook (applyUpdates (initFlags sales.rows.length distances.tail)
        (bandUpdates distances groups)) i (tag, distances.getD (j + 1) 0) := by
    rw [colVal_eq_rowLook hcols]
    unfold flagStage
    rw [rowLook_addWithin_ne _ _ _ _
      (by rcases htag with h | h <;> simp [h])]
    exact hmw.1
  have hn : (rowOf (initFlags sales.rows.length distances.tail) i).isSome
      = true := by
    rw [← isSome_rowOf_applyUpdates _ (bandUpdates distances groups)]
    exact hmw.2
  have hiltn : i < sales.rows.length := by
    rw [isSome_rowOf_initFlags] at hn
    simpa using hn
  rw [hval, rowLook_applyUpdates]
  constructor
  · intro hex
    rw [if_pos ((mem_bandUpdates_iff distances groups i tag j htag hsorted
      hj).2 hex)]
    cases hr0 : rowOf (initFlags sales.rows.length distances.tail) i with
    | none => rw [hr0] at hn; cases hn
    | some r0 => rfl
  · intro hex
    rw [if_neg (fun hc => hex ((mem_bandUpdates_iff distances groups i tag j
      htag hsorted hj).1 hc))]
    exact rowLook_initFlags _ _ _ _ hiltn hkmem

/-- With a distance list already led by `0` and a successful matcher run,
`add_spacetime_flags` with `add_interactions=False` returns exactly the
flag-building stage's table. -/
theorem add_spacetime_flags_no_interactions (homicides : HomTable)
    (sales : SaleTable) (ds : List ℚ) (windows : ℚ × ℚ) (ws ed tr : Bool)
    (groups : List MatchGroup)
    (hm : get_sale_groups_by_homicide homicides sales
      ((((0 : ℚ) :: ds).max?).getD 0) windows = .ok groups) :
    add_spacetime_flags homicides sales ((0 : ℚ) :: ds) windows ws false ed tr =
      .ok (flagStage sales ((0 : ℚ) :: ds) windows ws groups) := by
  unfold add_spacetime_flags
  simp only [ne_eq, not_true_eq_false, if_false, hm]
  rw [if_pos (show ¬ (false = true) by simp)]

/-- The `add_interactions=True` shape: the result is the interaction stage
applied to the flag stage's table. -/
theorem add_spacetime_flags_interactions (homicides : HomTable)
    (sales : SaleTable) (ds : List ℚ) (windows : ℚ × ℚ) (ws ed tr : Bool)
    (groups : List MatchGroup)
    (hm : get_sale_groups_by_homicide homicides sales
      ((((0 : ℚ) :: ds).max?).getD 0) windows = .ok groups) :
    add_spacetime_flags homicides sales ((0 : ℚ) :: ds) windows ws true ed tr =
      interactionStage (flagStage sales ((0 : ℚ) :: ds) windows ws groups)
        ds ((((0 : ℚ) :: ds).getLast?).getD 0) ed tr := by
  unfold add_spacetime_flags
  simp only [ne_eq, not_true_eq_false, if_false, hm]
  rfl

theorem sqrtLt_of_not_sqrtLe {b d2 : ℚ} (h : ¬ sqrtLe b d2 = true) :
    sqrtLt d2 b = true := by
  simp only [sqrtLe, Bool.or_eq_true, decide_eq_true_eq, not_or, not_le] at h
  simp only [sqrtLt, Bool.and_eq_true, decide_eq_true_eq]
  exact ⟨h.1, h.2⟩

theorem sorted_getD_mono {l : List ℚ} (hs : l.Sorted (· < ·)) {a b : ℕ}
    (hab : a ≤ b) (hb : b < l.length) : l.getD a 0 ≤ l.getD b 0 := by
  have ha : a < l.length := lt_of_le_of_lt hab hb
  rw [l.getD_eq_getElem 0 ha, l.getD_eq_getElem 0 hb]
  rcases lt_or_eq_of_le hab with h | h
  · have := hs.rel_get_of_lt (a := ⟨a, ha⟩) (b := ⟨b, hb⟩) h
    simp only [List.get_eq_getElem] at this
    exact le_of_lt this
  · subst h
    rfl

/-- Distinct half-open bands `[distances[j]*5280, distances[j+1]*5280)` of an
ascending distance list cannot both contain one squared distance. -/
theorem band_disjoint (distances : List ℚ)
    (hsorted : distances.Sorted (· < ·)) (d2 : ℚ) (j1 j2 : ℕ)
    (h1 : j1 + 1 < distances.length) (h2 : j2 + 1 < distances.length)
    (hlo1 : sqrtLe (distances.getD j1 0 * FT_PER_MILE) d2 = true)
    (hhi1 : sqrtLt d2 (distances.getD (j1 + 1) 0 * FT_PER_MILE) = true)
    (hlo2 : sqrtLe (distances.getD j2 0 * FT_PER_MILE) d2 = true)
    (hhi2 : sqrtLt d2 (distances.getD (j2 + 1) 0 * FT_PER_MILE) = true) :
    j1 = j2 := by
  rcases lt_trichotomy j1 j2 with h | h | h
  · exfalso
    have hle : distances.getD (j1 + 1) 0 ≤ distances.getD j2 0 :=
      sorted_getD_mono hsorted (by omega) (by omega)
    have hle' : distances.getD (j1 + 1) 0 * FT_PER_MILE ≤
        distances.getD j2 0 * FT_PER_MILE :=
      mul_le_mul_of_nonneg_right hle (by norm_num [FT_PER_MILE])
    exact sqrtLt_disjoint hle' hhi1 hlo2
  · exact h
  · exfalso
    have hle : distances.getD (j2 + 1) 0 ≤ distances.getD j1 0 :=
      sorted_getD_mono hsorted (by omega) (by omega)
    have hle' : distances.getD (j2 + 1) 0 * FT_PER_MILE ≤
        distances.getD j1 0 * FT_PER_MILE :=
      mul_le_mul_of_nonneg_right hle (by norm_num [FT_PER_MILE])
    exact sqrtLt_disjoint hle' hhi2 hlo1

/-- Every match distance strictly inside the maximal radius falls into some
band of a `0`-led ascending distance list. -/
theorem band_exists (ds : List ℚ)
    (hsorted : ((0 : ℚ) :: ds).Sorted (· < ·)) (d2 : ℚ) (hd2 : 0 ≤ d2)
    (hlt : sqrtLt d2 (((((0 : ℚ) :: ds).getLast?).getD 0) * FT_PER_MILE)
      = true) :
    ∃ j, j + 1 < ((0 : ℚ) :: ds).length ∧
      sqrtLe (((0 : ℚ) :: ds).getD j 0 * FT_PER_MILE) d2 = true ∧
      sqrtLt d2 (((0 : ℚ) :: ds).getD (j + 1) 0 * FT_PER_MILE) = true := by
  set l : List ℚ := (0 : ℚ) :: ds with hl
  have hlen : 1 ≤ l.length := by simp [hl]
  set m : ℕ := l.length - 1 with hm
  have hmlt : m < l.length := by omega
  have hlast : (l.getLast?).getD 0 = l.getD m 0 := by
    rw [List.getLast?_eq_getElem?, l.getD_eq_getElem 0 hmlt]
    have : l.length - 1 = m := rfl
    rw [this, List.getElem?_eq_getElem hmlt]
    rfl
  set P : ℕ → Prop := fun j => sqrtLe (l.getD j 0 * FT_PER_MILE) d2 = true
    with hP
  have hP0 : P 0 := by
    have : l.getD 0 0 = 0 := by simp [hl]
    simp only [hP, this, zero_mul, sqrtLe, Bool.or_eq_true, decide_eq_true_eq]
    exact Or.inl le_rfl
  have hdec : DecidablePred P := fun j => by
    rw [hP]
    infer_instance
  let jstar := @Nat.findGreatest P hdec m
  have hPj : P jstar := @Nat.findGreatest_spec 0 P hdec m (Nat.zero_le m) hP0
  have hjle : jstar ≤ m := @Nat.findGreatest_le P hdec m
  have hjne : jstar ≠ m := by
    intro hc
    apply sqrtLt_disjoint (le_refl (l.getD m 0 * FT_PER_MILE)) _ (hc ▸ hPj)
    rw [← hlast]
    exact hlt
  have hjlt : jstar < m := lt_of_le_of_ne hjle hjne
  refine ⟨jstar, by omega, hPj, ?_⟩
  apply sqrtLt_of_not_sqrtLe
  exact @Nat.findGreatest_is_greatest (jstar + 1) P hdec m (by omega) (by omega)

/-- C2 as amended: in the table built by `add_spacetime_flags` (with the raw
before/after columns kept, `add_interactions=False`), the flag column
`(tag, distances[j+1])` of a surviving sale is 1 exactly when SOME matched
homicide lies at a distance in the half-open band
`[distances[j]*5280, distances[j+1]*5280)` (feet) for that direction — the
bands are left-closed/right-open, not `(lo, hi]`, and the flag is per-match,
not a function of the minimum matching distance, so a sale matched to several
homicides can be flagged in several bands.  The bands themselves are pairwise
disjoint and cover every distance strictly inside the maximal one, so no
single match is double-counted across bands. -/
theorem spacetimeFlagBuilder_band_flags
    (homicides : HomTable) (sales : SaleTable) (ds : List ℚ)
    (windows : ℚ × ℚ) (ws ed tr : Bool) (groups : List MatchGroup)
    (T : FlagTable)
    (hsorted : ((0 : ℚ) :: ds).Sorted (· < ·))
    (hm : get_sale_groups_by_homicide homicides sales
      ((((0 : ℚ) :: ds).max?).getD 0) windows = .ok groups)
    (hok : add_spacetime_flags homicides sales ((0 : ℚ) :: ds) windows
      ws false ed tr = .ok T)
    (i : ℕ) (hpres : (rowOf T i).isSome = true)
    (tag : Tag) (htag : tag = Tag.before ∨ tag = Tag.after)
    (j : ℕ) (hj : j + 1 < ((0 : ℚ) :: ds).length) :
    (colVal T i (tag, ((0 : ℚ) :: ds).getD (j + 1) 0) = some 1 ↔
      ∃ g ∈ groups, ∃ d2, (i, d2) ∈ tagPairs g tag ∧
        sqrtLe (((0 : ℚ) :: ds).getD j 0 * FT_PER_MILE) d2 = true ∧
        sqrtLt d2 (((0 : ℚ) :: ds).getD (j + 1) 0 * FT_PER_MILE) = true) ∧
    (∀ j1 j2, j1 + 1 < ((0 : ℚ) :: ds).length →
      j2 + 1 < ((0 : ℚ) :: ds).length → ∀ d2,
      sqrtLe (((0 : ℚ) :: ds).getD j1 0 * FT_PER_MILE) d2 = true →
      sqrtLt d2 (((0 : ℚ) :: ds).getD (j1 + 1) 0 * FT_PER_MILE) = true →
      sqrtLe (((0 : ℚ) :: ds).getD j2 0 * FT_PER_MILE) d2 = true →
      sqrtLt d2 (((0 : ℚ) :: ds).getD (j2 + 1) 0 * FT_PER_MILE) = true →
      j1 = j2) ∧
    (∀ d2, 0 ≤ d2 →
      sqrtLt d2 (((((0 : ℚ) :: ds).getLast?).getD 0) * FT_PER_MILE) = true →
      ∃ j', j' + 1 < ((0 : ℚ) :: ds).length ∧
        sqrtLe (((0 : ℚ) :: ds).getD j' 0 * FT_PER_MILE) d2 = true ∧
        sqrtLt d2 (((0 : ℚ) :: ds).getD (j' + 1) 0 * FT_PER_MILE) = true) := by
  have hT : T = flagStage sales ((0 : ℚ) :: ds) windows ws groups := by
    have := add_spacetime_flags_no_interactions homicides sales ds windows
      ws ed tr groups hm
    rw [hok] at this
    exact Except.ok.inj this
  subst hT
  refine ⟨?_, ?_, ?_⟩
  · have hbv := flagStage_band_value sales ((0 : ℚ) :: ds) windows ws groups
      i tag j htag hsorted hj hpres
    constructor
    · intro hcv
      by_contra hnex
      rw [hbv.2 hnex] at hcv
      cases hcv
    · exact hbv.1
  · intro j1 j2 h1 h2 d2 hlo1 hhi1 hlo2 hhi2
    exact band_disjoint _ hsorted d2 j1 j2 h1 h2 hlo1 hhi1 hlo2 hhi2
  · intro d2 hd2 hlt
    exact band_exists ds hsorted d2 hd2 hlt

/-- Counterexample to C2: a sale at the origin (sold 5 days after both
homicides) is matched to one homicide at 0.5 miles and to another at exactly
1 mile = 5280 feet.  Its minimum matching distance is 0.5 miles, inside the
claimed band `(0, 1]`, yet the built table sets BOTH `after` band flags to 1:
the 1-mile match falls into the band `[1, 2)` (bands are left-closed, not
`(lo, hi]`), the flag is per-match rather than by minimum distance, and the
sale is counted in two bands at once. -/
theorem spacetimeFlagBuilder_double_band_cex :
    (add_spacetime_flags ⟨[⟨some (2640, 0), 0⟩, ⟨some (5280, 0), 0⟩], true⟩
        ⟨[⟨some (0, 0), 432000, 0, 0, 0⟩], true⟩ [0, 1, 2] (10, 10)
        false false true true).map
      (fun T => (colVal T 0 (Tag.after, 1), colVal T 0 (Tag.after, 2))) =
      .ok (some 1, some 1) ∧
    sqDist (0, 0) (5280, 0) = (1 * FT_PER_MILE) ^ 2 := by
  constructor
  · norm_num +decide [add_spacetime_flags, get_sale_groups_by_homicide,
      knn_distance, radius_neighbors, mkMatchGroup, saleTime, sqDist, sqrtLeB, sqrtLe, sqrtLt,
      afterTest, beforeTest, tableXY, FT_PER_MILE, SECONDS_PER_DAY, flagStage,
      maybeWindow, initFlags, initStep, bandUpdates, bandUpdate, tagPairs,
      applyUpdates, setOnes, setCol, assocSet, addWithin, withinStep, anyPos,
      colVal, rowOf, rowLook, List.enum, List.enumFrom, List.filterMap_cons,
      List.filter_cons, List.foldl_cons, List.range_succ, List.lookup,
      Except.map]
  · norm_num [sqDist, FT_PER_MILE]

/-- Witness for `spacetimeFlagBuilder_band_flags` at a concrete input (one
homicide two miles from the single sale — so no match — distance list
`[0, 1]`). -/
theorem spacetimeFlagBuilder_band_flags_witness :
    (colVal ⟨[(Tag.before, 1), (Tag.after, 1), (Tag.within, 1)],
        [(0, [((Tag.before, 1), 0), ((Tag.after, 1), 0),
          ((Tag.within, 1), 0)])]⟩ 0 (Tag.after, ((0 : ℚ) :: [1]).getD 1 0)
        = some 1 ↔
      ∃ g ∈ ([⟨[], [], [], [], []⟩] : List MatchGroup), ∃ d2,
        ((0 : ℕ), d2) ∈ tagPairs g Tag.after ∧
        sqrtLe (((0 : ℚ) :: [1]).getD 0 0 * FT_PER_MILE) d2 = true ∧
        sqrtLt d2 (((0 : ℚ) :: [1]).getD 1 0 * FT_PER_MILE) = true) ∧
    (∀ j1 j2, j1 + 1 < ((0 : ℚ) :: [1]).length →
      j2 + 1 < ((0 : ℚ) :: [1]).length → ∀ d2,
      sqrtLe (((0 : ℚ) :: [1]).getD j1 0 * FT_PER_MILE) d2 = true →
      sqrtLt d2 (((0 : ℚ) :: [1]).getD (j1 + 1) 0 * FT_PER_MILE) = true →
      sqrtLe (((0 : ℚ) :: [1]).getD j2 0 * FT_PER_MILE) d2 = true →
      sqrtLt d2 (((0 : ℚ) :: [1]).getD (j2 + 1) 0 * FT_PER_MILE) = true →
      j1 = j2) ∧
    (∀ d2, 0 ≤ d2 →
      sqrtLt d2 (((((0 : ℚ) :: [1]).getLast?).getD 0) * FT_PER_MILE) = true →
      ∃ j', j' + 1 < ((0 : ℚ) :: [1]).length ∧
        sqrtLe (((0 : ℚ) :: [1]).getD j' 0 * FT_PER_MILE) d2 = true ∧
        sqrtLt d2 (((0 : ℚ) :: [1]).getD (j' + 1) 0 * FT_PER_MILE) = true) :=
  spacetimeFlagBuilder_band_flags ⟨[⟨some (10560, 0), 0⟩], true⟩
    ⟨[⟨some (0, 0), 0, 0, 0, 0⟩], true⟩ [1] (10, 10) false true true
    [⟨[], [], [], [], []⟩]
    ⟨[(Tag.before, 1), (Tag.after, 1), (Tag.within, 1)],
      [(0, [((Tag.before, 1), 0), ((Tag.after, 1), 0), ((Tag.within, 1), 0)])]⟩
    (by norm_num [List.sorted_cons])
    (by norm_num +decide [get_sale_groups_by_homicide, knn_distance,
      radius_neighbors, mkMatchGroup, saleTime, sqDist, sqrtLeB, afterTest,
      beforeTest, tableXY, FT_PER_MILE, SECONDS_PER_DAY, List.enum,
      List.enumFrom, List.filterMap_cons, List.filter_cons])
    (by norm_num +decide [add_spacetime_flags, get_sale_groups_by_homicide,
      knn_distance, radius_neighbors, mkMatchGroup, saleTime, sqDist, sqrtLeB,
      sqrtLe, sqrtLt, afterTest, beforeTest, tableXY, FT_PER_MILE,
      SECONDS_PER_DAY, flagStage, maybeWindow, initFlags, initStep,
      bandUpdates, bandUpdate, tagPairs, applyUpdates, setOnes, setCol,
      assocSet, addWithin, withinStep, anyPos, List.enum, List.enumFrom,
      List.filterMap_cons, List.filter_cons, List.foldl_cons,
      List.range_succ])
    0 (by decide) Tag.after (Or.inr rfl) 0 (by norm_num)

theorem colVal_some_elim {T : FlagTable} {i : ℕ} {k : ColKey} {v : ℤ}
    (h : colVal T i k = some v) :
    k ∈ T.cols ∧ ∃ r, rowOf T i = some r ∧ r.lookup k = some v := by
  unfold colVal at h
  split at h
  · refine ⟨by assumption, ?_⟩
    cases hr : rowOf T i with
    | none => rw [hr] at h; cases h
    | some r =>
        rw [hr] at h
        exact ⟨r, rfl, h⟩
  · cases h

theorem isSome_of_colVal_eq_some {T : FlagTable} {i : ℕ} {k : ColKey} {v : ℤ}
    (h : colVal T i k = some v) : (rowOf T i).isSome = true := by
  rcases (colVal_some_elim h).2 with ⟨r, hr, _⟩
  rw [hr]
  rfl

/-- The result shape of the interaction stage with
`exclude_duplicates=True, trim_by_max_distance=True`. -/
theorem interactionStage_ok_tt {T3 : FlagTable} {dtail : List ℚ} {dlast : ℚ}
    {T : FlagTable} (h : interactionStage T3 dtail dlast true true = .ok T) :
    T = dropCols (trimFilter dtail (dedupFilter dtail.dropLast T3))
      ((dtail.map fun d => (Tag.before, d)) ++
        [(Tag.after, dlast), (Tag.before, dlast), (Tag.within, dlast)]) := by
  unfold interactionStage at h
  simp only [eq_self_iff_true, if_true] at h
  split at h
  · exact (Except.ok.inj h).symm
  · cases h

/-- C5 as amended, in three parts.  (1) With the defaults
`add_interactions=True, exclude_duplicates=True, trim_by_max_distance=True`,
a sale flagged both before and after in the same band `d` is dropped from the
returned table — provided `d` is not the outermost band (the dedup loop runs
over `distances[1:-1]`).  (2) With `add_interactions=False` the function
returns before the duplicate-exclusion code: `exclude_duplicates` (and
`trim_by_max_distance`) have no effect at all.  (3) Hence only with
`add_interactions=False` is the both-flags-set row observable: it is then
retained with both the before and after flag columns equal to 1. -/
theorem spacetimeFlagBuilder_duplicate_handling :
    (∀ (homicides : HomTable) (sales : SaleTable) (ds : List ℚ)
        (windows : ℚ × ℚ) (ws : Bool) (groups : List MatchGroup)
        (T : FlagTable) (i : ℕ) (d : ℚ),
      get_sale_groups_by_homicide homicides sales
        ((((0 : ℚ) :: ds).max?).getD 0) windows = .ok groups →
      add_spacetime_flags homicides sales ((0 : ℚ) :: ds) windows
        ws true true true = .ok T →
      d ∈ ds.dropLast →
      colVal (flagStage sales ((0 : ℚ) :: ds) windows ws groups) i
        (Tag.after, d) = some 1 →
      colVal (flagStage sales ((0 : ℚ) :: ds) windows ws groups) i
        (Tag.before, d) = some 1 →
      rowOf T i = none) ∧
    (∀ (homicides : HomTable) (sales : SaleTable) (ds0 : List ℚ)
        (windows : ℚ × ℚ) (ws ed ed' tr tr' : Bool),
      add_spacetime_flags homicides sales ds0 windows ws false ed tr =
        add_spacetime_flags homicides sales ds0 windows ws false ed' tr') ∧
    (∀ (homicides : HomTable) (sales : SaleTable) (ds : List ℚ)
        (windows : ℚ × ℚ) (ws ed tr : Bool) (groups : List MatchGroup)
        (T : FlagTable) (i : ℕ) (d : ℚ),
      get_sale_groups_by_homicide homicides sales
        ((((0 : ℚ) :: ds).max?).getD 0) windows = .ok groups →
      add_spacetime_flags homicides sales ((0 : ℚ) :: ds) windows
        ws false ed tr = .ok T →
      colVal (flagStage sales ((0 : ℚ) :: ds) windows ws groups) i
        (Tag.after, d) = some 1 →
      colVal (flagStage sales ((0 : ℚ) :: ds) windows ws groups) i
        (Tag.before, d) = some 1 →
      colVal T i (Tag.after, d) = some 1 ∧
        colVal T i (Tag.before, d) = some 1 ∧ (rowOf T i).isSome = true) := by
  refine ⟨?_, ?_, ?_⟩
  · intro homicides sales ds windows ws groups T i d hm hok hd hA hB
    have hshape := add_spacetime_flags_interactions homicides sales ds
      windows ws true true groups hm
    rw [hok] at hshape
    have hT := interactionStage_ok_tt hshape.symm
    subst hT
    set T3 := flagStage sales ((0 : ℚ) :: ds) windows ws groups with hT3
    have hwf3 : WF T3 := wf_flagStage _ _ _ _ _
    have hwf4 : WF (dedupFilter ds.dropLast T3) := wf_dedupFilter _ hwf3
    have hwf5 : WF (trimFilter ds (dedupFilter ds.dropLast T3)) :=
      wf_trimFilter _ hwf4
    by_contra hne
    cases hrow : rowOf (dropCols (trimFilter ds (dedupFilter ds.dropLast T3))
        ((ds.map fun d => (Tag.before, d)) ++
          [(Tag.after, (((0 : ℚ) :: ds).getLast?).getD 0),
           (Tag.before, (((0 : ℚ) :: ds).getLast?).getD 0),
           (Tag.within, (((0 : ℚ) :: ds).getLast?).getD 0)])) i with
    | none => exact hne hrow
    | some r =>
        rw [rowOf_dropCols] at hrow
        cases hr5 : rowOf (trimFilter ds (dedupFilter ds.dropLast T3)) i with
        | none => rw [hr5] at hrow; cases hrow
        | some r5 =>
            have hr4 := rowOf_trimFilter_some ds hwf4 hr5
            rcases rowOf_dedupFilter_some ds.dropLast hwf3 hr4 with
              ⟨hr3, hall⟩
            rcases colVal_some_elim hA with ⟨_, rA, hrA, hlA⟩
            rcases colVal_some_elim hB with ⟨_, rB, hrB, hlB⟩
            rw [hr3] at hrA hrB
            cases hrA
            cases hrB
            have := hall d hd
            rw [show allPos r5 [(Tag.after, d), (Tag.before, d)] = true by
              simp [allPos, hlA, hlB]] at this
            cases this
  · intro homicides sales ds0 windows ws ed ed' tr tr'
    unfold add_spacetime_flags
    cases ds0 with
    | nil => rfl
    | cons d0 ds =>
        cases get_sale_groups_by_homicide homicides sales
            (((if d0 ≠ 0 then 0 :: d0 :: ds else d0 :: ds).max?).getD 0)
            windows with
        | error e => rfl
        | ok groups => rfl
  · intro homicides sales ds windows ws ed tr groups T i d hm hok hA hB
    have hshape := add_spacetime_flags_no_interactions homicides sales ds
      windows ws ed tr groups hm
    rw [hok] at hshape
    have hT := Except.ok.inj hshape
    subst hT
    exact ⟨hA, hB, isSome_of_colVal_eq_some hA⟩

/-- Counterexample to C5: one sale at the origin (t = 0) is matched before
one homicide (t = +5d) and after another (t = -5d) in the innermost band.
With `add_interactions=False` the built table shows both flags set (first
call).  But with `exclude_duplicates=False` and the default
`add_interactions=True` (second call), the returned table does NOT retain
both flag columns set to 1: the row survives and keeps `after = 1`, while
the `before` column for the band has been dropped from the table entirely
(`colVal = none`). -/
theorem spacetimeFlagBuilder_duplicate_retention_cex :
    (add_spacetime_flags ⟨[⟨some (0, 0), 432000⟩, ⟨some (0, 0), -432000⟩], true⟩
        ⟨[⟨some (0, 0), 0, 0, 0, 0⟩], true⟩ [0, 1, 2] (10, 10)
        false false false true).map
      (fun T => (colVal T 0 (Tag.before, 1), colVal T 0 (Tag.after, 1))) =
      .ok (some 1, some 1) ∧
    (add_spacetime_flags ⟨[⟨some (0, 0), 432000⟩, ⟨some (0, 0), -432000⟩], true⟩
        ⟨[⟨some (0, 0), 0, 0, 0, 0⟩], true⟩ [0, 1, 2] (10, 10)
        false true false true).map
      (fun T => (colVal T 0 (Tag.before, 1), colVal T 0 (Tag.after, 1),
        (rowOf T 0).isSome)) = .ok (none, some 1, true) := by
  constructor
  · norm_num +decide [add_spacetime_flags, get_sale_groups_by_homicide,
      knn_distance, radius_neighbors, mkMatchGroup, saleTime, sqDist, sqrtLeB, sqrtLe, sqrtLt,
      afterTest, beforeTest, tableXY, FT_PER_MILE, SECONDS_PER_DAY, flagStage,
      maybeWindow, initFlags, initStep, bandUpdates, bandUpdate, tagPairs,
      applyUpdates, setOnes, setCol, assocSet, addWithin, withinStep, anyPos,
      colVal, rowOf, rowLook, List.enum, List.enumFrom, List.filterMap_cons,
      List.filter_cons, List.foldl_cons, List.range_succ, List.lookup,
      Except.map]
  · norm_num +decide [add_spacetime_flags, get_sale_groups_by_homicide,
      knn_distance, radius_neighbors, mkMatchGroup, saleTime, sqDist, sqrtLeB, sqrtLe, sqrtLt,
      afterTest, beforeTest, tableXY, FT_PER_MILE, SECONDS_PER_DAY, flagStage,
      maybeWindow, initFlags, initStep, bandUpdates, bandUpdate, tagPairs,
      applyUpdates, setOnes, setCol, assocSet, addWithin, withinStep, anyPos,
      interactionStage, dedupFilter, trimFilter, dropCols, allPos,
      lookup_filter_keys, colVal, rowOf, rowLook, List.enum, List.enumFrom,
      List.filterMap_cons, List.filter_cons, List.foldl_cons, List.range_succ,
      List.lookup, Except.map]

/-- Witness for `spacetimeFlagBuilder_duplicate_handling` (its third part) at
the same concrete input. -/
theorem spacetimeFlagBuilder_duplicate_handling_witness :
    colVal ⟨[(Tag.before, 1), (Tag.after, 1), (Tag.before, 2), (Tag.after, 2),
        (Tag.within, 1), (Tag.within, 2)],
      [(0, [((Tag.before, 1), 1), ((Tag.after, 1), 1), ((Tag.before, 2), 0),
        ((Tag.after, 2), 0), ((Tag.within, 1), 1), ((Tag.within, 2), 0)])]⟩
      0 (Tag.after, 1) = some 1 ∧
    colVal ⟨[(Tag.before, 1), (Tag.after, 1), (Tag.before, 2), (Tag.after, 2),
        (Tag.within, 1), (Tag.within, 2)],
      [(0, [((Tag.before, 1), 1), ((Tag.after, 1), 1), ((Tag.before, 2), 0),
        ((Tag.after, 2), 0), ((Tag.within, 1), 1), ((Tag.within, 2), 0)])]⟩
      0 (Tag.before, 1) = some 1 ∧
    (rowOf ⟨[(Tag.before, 1), (Tag.after, 1), (Tag.before, 2), (Tag.after, 2),
        (Tag.within, 1), (Tag.within, 2)],
      [(0, [((Tag.before, 1), 1), ((Tag.after, 1), 1), ((Tag.before, 2), 0),
        ((Tag.after, 2), 0), ((Tag.within, 1), 1), ((Tag.within, 2), 0)])]⟩
      0).isSome = true :=
  spacetimeFlagBuilder_duplicate_handling.2.2
    ⟨[⟨some (0, 0), 432000⟩, ⟨some (0, 0), -432000⟩], true⟩
    ⟨[⟨some (0, 0), 0, 0, 0, 0⟩], true⟩ [1, 2] (10, 10) false false true
    [⟨[-432000], [0], [], [0], []⟩, ⟨[432000], [], [0], [], [0]⟩]
    ⟨[(Tag.before, 1), (Tag.after, 1), (Tag.before, 2), (Tag.after, 2),
        (Tag.within, 1), (Tag.within, 2)],
      [(0, [((Tag.before, 1), 1), ((Tag.after, 1), 1), ((Tag.before, 2), 0),
        ((Tag.after, 2), 0), ((Tag.within, 1), 1), ((Tag.within, 2), 0)])]⟩
    0 1
    (by norm_num +decide [get_sale_groups_by_homicide, knn_distance, radius_neighbors,
      mkMatchGroup, saleTime, sqDist, sqrtLeB, afterTest, beforeTest, tableXY,
      FT_PER_MILE, SECONDS_PER_DAY, List.enum, List.enumFrom,
      List.filterMap_cons, List.filter_cons])
    (by norm_num +decide [add_spacetime_flags, get_sale_groups_by_homicide,
      knn_distance, radius_neighbors, mkMatchGroup, saleTime, sqDist, sqrtLeB, sqrtLe, sqrtLt,
      afterTest, beforeTest, tableXY, FT_PER_MILE, SECONDS_PER_DAY, flagStage,
      maybeWindow, initFlags, initStep, bandUpdates, bandUpdate, tagPairs,
      applyUpdates, setOnes, setCol, assocSet, addWithin, withinStep, anyPos,
      List.enum, List.enumFrom, List.filterMap_cons, List.filter_cons,
      List.foldl_cons, List.range_succ])
    (by norm_num +decide [flagStage, maybeWindow, initFlags, initStep,
      bandUpdates, bandUpdate, tagPairs, applyUpdates, setOnes, setCol,
      assocSet, addWithin, withinStep, anyPos, sqrtLe, sqrtLt, FT_PER_MILE,
      colVal, rowOf, rowLook, List.foldl_cons, List.range_succ, List.lookup])
    (by norm_num +decide [flagStage, maybeWindow, initFlags, initStep,
      bandUpdates, bandUpdate, tagPairs, applyUpdates, setOnes, setCol,
      assocSet, addWithin, withinStep, anyPos, sqrtLe, sqrtLt, FT_PER_MILE,
      colVal, rowOf, rowLook, List.foldl_cons, List.range_succ, List.lookup])

/-- Evaluation of the code at C4's failing input: one homicide 100 ft from a
sale sold five days later, `distances=[0,1,2]`, default
`add_interactions=True` (and `exclude_duplicates=True`,
`trim_by_max_distance=True`; windowing off).  The function's docstring says
`add_interactions=True` ADDS flags that are the difference of the post/pre
flags; the returned table instead contains only the raw `after` flag and the
`within` helper for the inner band, both holding plain 0/1 values — no
interaction (`0.5 * (after - before)`) column of any kind is created, and
the `before` columns are simply dropped. -/
theorem add_spacetime_flags_no_interaction_column :
    add_spacetime_flags ⟨[⟨some (100, 0), 0⟩], true⟩
      ⟨[⟨some (0, 0), 432000, 0, 0, 0⟩], true⟩ [0, 1, 2] (10, 10)
      false true true true =
    .ok ⟨[(Tag.after, 1), (Tag.within, 1)],
      [(0, [((Tag.after, 1), 1), ((Tag.within, 1), 1)])]⟩ := by
  norm_num +decide [add_spacetime_flags, get_sale_groups_by_homicide,
    knn_distance, radius_neighbors, mkMatchGroup, saleTime, sqDist, sqrtLeB, sqrtLe, sqrtLt,
    afterTest, beforeTest, tableXY, FT_PER_MILE, SECONDS_PER_DAY, flagStage,
    maybeWindow, initFlags, initStep, bandUpdates, bandUpdate, tagPairs,
    applyUpdates, setOnes, setCol, assocSet, addWithin, withinStep, anyPos,
    interactionStage, dedupFilter, trimFilter, dropCols, allPos,
    List.enum, List.enumFrom, List.filterMap_cons, List.filter_cons,
    List.foldl_cons, List.range_succ, List.lookup]

/-- Any error of the matcher is the `AssertionError` of its four asserts or
the `ValueError` of the neighbor search on an empty table. -/
theorem get_sale_groups_error (homicides : HomTable) (sales : SaleTable)
    (r : ℚ) (w : ℚ × ℚ) (e : Err)
    (h : get_sale_groups_by_homicide homicides sales r w = .error e) :
    e = .assertionError ∨ e = .valueError := by
  simp only [get_sale_groups_by_homicide] at h
  split at h
  · cases h; exact Or.inl rfl
  · split at h
    · cases h; exact Or.inl rfl
    · split at h
      · cases h; exact Or.inl rfl
      · split at h
        · cases h; exact Or.inl rfl
        · split at h
          · rename_i e' heq
            cases h
            unfold knn_distance at heq
            split at heq
            · cases heq
              exact Or.inr rfl
            · cases heq
          · cases h

/-- Any error of the interaction stage is the `KeyError` of the final column
drop. -/
theorem ite_error_keyError {c : Prop} [Decidable c] {x : FlagTable} {e : Err}
    (h : (if c then Except.ok x else Except.error Err.keyError) = .error e) :
    e = .keyError := by
  split at h
  · cases h
  · exact (Except.error.inj h).symm

theorem interactionStage_error {T3 : FlagTable} {dtail : List ℚ} {dlast : ℚ}
    {ed tr : Bool} {e : Err}
    (h : interactionStage T3 dtail dlast ed tr = .error e) : e = .keyError :=
  ite_error_keyError h

/-- Counterexample to C7: a negative distance (`distances = [-1]`) raises no
error at all — `add_spacetime_flags` returns a table. -/
theorem add_spacetime_flags_negative_distance_cex :
    add_spacetime_flags ⟨[⟨some (100, 0), 0⟩], true⟩
      ⟨[⟨some (0, 0), 432000, 0, 0, 0⟩], true⟩ [-1] (10, 10)
      false true true true = .ok ⟨[], []⟩ := by
  norm_num +decide [add_spacetime_flags, get_sale_groups_by_homicide,
    knn_distance, radius_neighbors, mkMatchGroup, saleTime, sqDist, sqrtLeB, sqrtLe, sqrtLt,
    afterTest, beforeTest, tableXY, FT_PER_MILE, SECONDS_PER_DAY, flagStage,
    maybeWindow, initFlags, initStep, bandUpdates, bandUpdate, tagPairs,
    applyUpdates, setOnes, setCol, assocSet, addWithin, withinStep, anyPos,
    interactionStage, dedupFilter, trimFilter, dropCols, allPos,
    List.enum, List.enumFrom, List.filterMap_cons, List.filter_cons,
    List.foldl_cons, List.range_succ, List.lookup]

/-- C7 as amended: an empty `distances` list fails with `IndexError` (at
`distances[0]`), and no input whatsoever makes `add_spacetime_flags` raise a
`ValidationError` — in particular negative distances are never validated. -/
theorem add_spacetime_flags_distances_validation :
    (∀ (homicides : HomTable) (sales : SaleTable) (windows : ℚ × ℚ)
        (ws ai ed tr : Bool),
      add_spacetime_flags homicides sales [] windows ws ai ed tr =
        .error .indexError) ∧
    (∀ (homicides : HomTable) (sales : SaleTable) (ds0 : List ℚ)
        (windows : ℚ × ℚ) (ws ai ed tr : Bool) (e : Err),
      add_spacetime_flags homicides sales ds0 windows ws ai ed tr =
        .error e → e ≠ .validationError) := by
  constructor
  · intro homicides sales windows ws ai ed tr
    rfl
  · intro homicides sales ds0 windows ws ai ed tr e h
    cases ds0 with
    | nil =>
        have he : e = .indexError := (Except.error.inj h).symm
        subst he
        intro hc
        cases hc
    | cons d0 ds =>
        simp only [add_spacetime_flags] at h
        split at h
        · rename_i e' heq
          have he : e' = e := Except.error.inj h
          subst he
          rcases get_sale_groups_error _ _ _ _ _ heq with hh | hh <;>
            · rw [hh]
              intro hc
              cases hc
        · split at h
          · cases h
          · rw [interactionStage_error h]
            intro hc
            cases hc

/-- Witness for `add_spacetime_flags_distances_validation` at a concrete
input. -/
theorem add_spacetime_flags_distances_validation_witness :
    add_spacetime_flags ⟨[], true⟩ ⟨[], true⟩ [] (10, 10) true true true true =
      .error .indexError :=
  add_spacetime_flags_distances_validation.1 ⟨[], true⟩ ⟨[], true⟩ (10, 10)
    true true true true

/-!
## `get_sale_price_psf_from_homicide` (distance.py lines 6–98)

The response series `C` holds exact rationals; the reported per-bin mean
distance is the mean of the (irrational) square roots of the squared
distances divided by `FT_PER_MILE`, so the `X` series is carried as the list
of squared distances of each bin — the rendered value is determined by it.
-/

/-- Sale price per square foot: `sale_price_indexed / total_livable_area`
(distance.py line 50). -/
def psf (r : SaleRow) : ℚ := r.sale_price_indexed / r.total_livable_area

/-- The windowing of the sales table done before matching (distance.py lines
38–47); with no rows every comparison against the NaN min/max is false. -/
def window_sales_rows (sales : SaleTable) (w : ℚ × ℚ) : List SaleRow :=
  match (sales.rows.map SaleRow.sale_date).min?,
      (sales.rows.map SaleRow.sale_date).max? with
  | some dmin, some dmax =>
      sales.rows.filter fun s =>
        decide (dmin + w.1 * SECONDS_PER_DAY ≤ s.sale_date) &&
        decide (s.sale_date ≤ dmax - w.2 * SECONDS_PER_DAY)
  | _, _ => []

/-- `np.linspace(0, R, nbins + 1)` (distance.py line 73). -/
def linEdges (R : ℚ) (nbins : ℕ) : List ℚ :=
  (List.range (nbins + 1)).map fun (i : ℕ) => (i : ℚ) * R / (nbins : ℚ)

/-- `np.digitize(d, edges)` for an increasing edge list: the number of edges
at most the distance (distances carried squared). -/
def dig (es : List ℚ) (d2 : ℚ) : ℕ := es.countP fun e => sqrtLe e d2

/-- `Series.median()` (pandas): middle of the sorted values, or the average
of the two middle ones; 0 stands in for the NaN of an empty series (never hit
on an occupied bin). -/
def median (l : List ℚ) : ℚ :=
  let s := l.insertionSort (· ≤ ·)
  if s.length = 0 then 0
  else if s.length % 2 = 1 then s.getD (s.length / 2) 0
  else (s.getD (s.length / 2 - 1) 0 + s.getD (s.length / 2) 0) / 2

/-- `Series.mean()` on rationals. -/
def listMean (l : List ℚ) : ℚ := l.sum / l.length

/-- The per-bin series of `get_binned_distance` before the final-bin drop
(distance.py lines 74–79): the occupied bin keys in ascending order and, per
key, the bin's squared distances, the median response and the size. -/
def binSeries (pairs : List (ℚ × ℚ)) (es : List ℚ) (nbins : ℕ) :
    List (List ℚ) × List ℚ × List ℕ :=
  let keys := (List.range (nbins + 2)).filter fun k =>
    pairs.any fun dy => dig es dy.1 == k
  (keys.map fun k => (pairs.filter fun dy => dig es dy.1 == k).map Prod.fst,
   keys.map fun k => median ((pairs.filter fun dy => dig es dy.1 == k).map
     Prod.snd),
   keys.map fun k => (pairs.filter fun dy => dig es dy.1 == k).length)

/-- The three dropped-last-bin series a `get_binned_distance` call returns
(distance.py lines 72–84): squared distances per bin (whose mean square root
over `FT_PER_MILE` is the reported mean distance), median response per bin,
and count per bin. -/
structure BinnedResult where
  X : List (List ℚ)
  C : List ℚ
  N : List ℕ
deriving DecidableEq, Repr

def get_binned_distance (D Y : List ℚ) (space_radius : ℚ) (nbins : ℕ) :
    BinnedResult :=
  let es := linEdges (space_radius * FT_PER_MILE) nbins
  let full := binSeries (D.zip Y) es nbins
  ⟨full.1.dropLast, full.2.1.dropLast, full.2.2.dropLast⟩

/-- The result of `get_sale_price_psf_from_homicide`: pooled or split per
direction, plus the unconditional median price per square foot. -/
inductive PsfResult where
  | pooled (r : BinnedResult) (baseline : ℚ)
  | bySplit (rBefore rAfter : BinnedResult) (baseline : ℚ)
deriving DecidableEq, Repr

/-- The price per square foot of windowed sale `j` (`.loc` through the index
of the windowed frame). -/
def psfOf (rows : List SaleRow) (j : ℕ) : ℚ := ((rows.get? j).map psf).getD 0

/-- Embedding of `get_sale_price_psf_from_homicide(homicides, sales,
space_radius, time_window, nbins, window_sales, split_results)` (distance.py
lines 6–98).  Matcher errors (asserts, empty-table `ValueError`) propagate;
the `groups.isEmpty` guard mirrors the source's `np.concatenate` of an empty
list of arrays, which would also raise `ValueError` (with the matcher's own
empty-table check in place it is no longer reachable). -/
def get_sale_price_psf_from_homicide (homicides : HomTable)
    (sales : SaleTable) (space_radius : ℚ) (time_window : ℚ × ℚ)
    (nbins : ℕ) (window_sales split_results : Bool) : Except Err PsfResult :=
  let rows' := if window_sales then window_sales_rows sales time_window
    else sales.rows
  match get_sale_groups_by_homicide homicides
      ⟨rows', sales.has_time_offset⟩ space_radius time_window with
  | .error e => .error e
  | .ok groups =>
    if groups.isEmpty then .error .valueError
    else
      let Dbefore := groups.flatMap MatchGroup.beforeD
      let Ybefore := groups.flatMap fun g => g.beforeIdx.map (psfOf rows')
      let Dafter := groups.flatMap MatchGroup.afterD
      let Yafter := groups.flatMap fun g => g.afterIdx.map (psfOf rows')
      let baseline := median (rows'.map psf)
      if split_results then
        .ok (.bySplit (get_binned_distance Dbefore Ybefore space_radius nbins)
          (get_binned_distance Dafter Yafter space_radius nbins) baseline)
      else
        .ok (.pooled (get_binned_distance (Dbefore ++ Dafter)
          (Ybefore ++ Yafter) space_radius nbins) baseline)

/-- The baseline (unconditional median price per square foot) of a result. -/
def baselineOf : PsfResult → ℚ
  | .pooled _ b => b
  | .bySplit _ _ b => b

theorem linEdges_getD (R : ℚ) (nbins : ℕ) {i : ℕ} (hi : i < nbins + 1) :
    (linEdges R nbins).getD i 0 = i * R / nbins := by
  have hlen : i < (linEdges R nbins).length := by simp [linEdges, hi]
  rw [(linEdges R nbins).getD_eq_getElem 0 hlen]
  simp [linEdges]

theorem linEdges_head (R : ℚ) (nbins : ℕ) :
    (linEdges R nbins).head? = some 0 := by
  unfold linEdges
  rw [List.range_succ_eq_map]
  simp

theorem linEdges_last (R : ℚ) (nbins : ℕ) (h : 1 ≤ nbins) :
    (linEdges R nbins).getLast? = some R := by
  unfold linEdges
  have hlen : ((List.range (nbins + 1)).map
      fun (j : ℕ) => (j : ℚ) * R / (nbins : ℚ)).length = nbins + 1 := by simp
  rw [List.getLast?_eq_getElem?, hlen]
  have hlt : nbins < ((List.range (nbins + 1)).map
      fun (j : ℕ) => (j : ℚ) * R / (nbins : ℚ)).length := by
    simpa using Nat.lt_succ_self nbins
  rw [show nbins + 1 - 1 = nbins from rfl, List.getElem?_eq_getElem hlt]
  simp only [List.getElem_map, List.getElem_range, Option.some.injEq]
  have hnz : (nbins : ℚ) ≠ 0 := by
    exact_mod_cast Nat.pos_iff_ne_zero.1 h
  field_simp

theorem linEdges_width (R : ℚ) (nbins : ℕ) {i : ℕ} (hi : i < nbins) :
    (linEdges R nbins).getD (i + 1) 0 - (linEdges R nbins).getD i 0 =
      R / nbins := by
  rw [linEdges_getD R nbins (by omega), linEdges_getD R nbins (by omega)]
  push_cast
  rw [div_sub_div_same]
  ring_nf

theorem binSeries_lengths (pairs : List (ℚ × ℚ)) (es : List ℚ) (nbins : ℕ) :
    (binSeries pairs es nbins).1.length = (binSeries pairs es nbins).2.1.length
    ∧ (binSeries pairs es nbins).2.1.length =
      (binSeries pairs es nbins).2.2.length := by
  unfold binSeries
  simp

/-- C8: the distance aggregator bins the matched distances with
`np.linspace(0, radius, nbins+1)` — equal-width bins spanning `[0, radius]`
(in the internal linear unit, feet) — drops the final element of each
returned per-bin series (mean distance, median response, count; the three
series stay aligned), and returns as baseline the unconditional median of
price per livable area over ALL sales of the windowed input table, matched
or not (the expression on the right mentions no homicide data). -/
theorem distanceAggregator_spec (homicides : HomTable) (sales : SaleTable)
    (space_radius : ℚ) (tw : ℚ × ℚ) (nbins : ℕ) (split : Bool)
    (groups : List MatchGroup) (res : PsfResult)
    (hnb : 1 ≤ nbins)
    (hm : get_sale_groups_by_homicide homicides
      ⟨window_sales_rows sales tw, sales.has_time_offset⟩ space_radius tw =
      .ok groups)
    (hok : get_sale_price_psf_from_homicide homicides sales space_radius tw
      nbins true split = .ok res) :
    baselineOf res = median ((window_sales_rows sales tw).map psf) ∧
    (linEdges (space_radius * FT_PER_MILE) nbins).head? = some 0 ∧
    (linEdges (space_radius * FT_PER_MILE) nbins).getLast? =
      some (space_radius * FT_PER_MILE) ∧
    (∀ i < nbins,
      (linEdges (space_radius * FT_PER_MILE) nbins).getD (i + 1) 0 -
        (linEdges (space_radius * FT_PER_MILE) nbins).getD i 0 =
        (space_radius * FT_PER_MILE) / nbins) ∧
    (∀ r b, res = .pooled r b →
      r.X = (binSeries
        ((groups.flatMap MatchGroup.beforeD ++
          groups.flatMap MatchGroup.afterD).zip
          (groups.flatMap (fun g => g.beforeIdx.map
            (psfOf (window_sales_rows sales tw))) ++
           groups.flatMap (fun g => g.afterIdx.map
            (psfOf (window_sales_rows sales tw)))))
        (linEdges (space_radius * FT_PER_MILE) nbins) nbins).1.dropLast ∧
      r.C = (binSeries
        ((groups.flatMap MatchGroup.beforeD ++
          groups.flatMap MatchGroup.afterD).zip
          (groups.flatMap (fun g => g.beforeIdx.map
            (psfOf (window_sales_rows sales tw))) ++
           groups.flatMap (fun g => g.afterIdx.map
            (psfOf (window_sales_rows sales tw)))))
        (linEdges (space_radius * FT_PER_MILE) nbins) nbins).2.1.dropLast ∧
      r.N = (binSeries
        ((groups.flatMap MatchGroup.beforeD ++
          groups.flatMap MatchGroup.afterD).zip
          (groups.flatMap (fun g => g.beforeIdx.map
            (psfOf (window_sales_rows sales tw))) ++
           groups.flatMap (fun g => g.afterIdx.map
            (psfOf (window_sales_rows sales tw)))))
        (linEdges (space_radius * FT_PER_MILE) nbins) nbins).2.2.dropLast ∧
      r.X.length = r.C.length ∧ r.C.length = r.N.length) := by
  simp only [get_sale_price_psf_from_homicide, eq_self_iff_true, if_true]
    at hok
  rw [hm] at hok
  have hokr : (if groups.isEmpty = true then
      (.error .valueError : Except Err PsfResult)
    else if split = true then
      .ok (.bySplit
        (get_binned_distance (groups.flatMap MatchGroup.beforeD)
          (groups.flatMap fun g => g.beforeIdx.map
            (psfOf (window_sales_rows sales tw))) space_radius nbins)
        (get_binned_distance (groups.flatMap MatchGroup.afterD)
          (groups.flatMap fun g => g.afterIdx.map
            (psfOf (window_sales_rows sales tw))) space_radius nbins)
        (median ((window_sales_rows sales tw).map psf)))
    else
      .ok (.pooled
        (get_binned_distance
          (groups.flatMap MatchGroup.beforeD ++
            groups.flatMap MatchGroup.afterD)
          ((groups.flatMap fun g => g.beforeIdx.map
            (psfOf (window_sales_rows sales tw))) ++
           (groups.flatMap fun g => g.afterIdx.map
            (psfOf (window_sales_rows sales tw)))) space_radius nbins)
        (median ((window_sales_rows sales tw).map psf)))) = .ok res := hok
  clear hok
  split at hokr
  · cases hokr
  · refine ⟨?_, linEdges_head _ _, linEdges_last _ _ hnb,
      fun i hi => linEdges_width _ _ hi, ?_⟩
    · split at hokr
      · cases hokr
        rfl
      · cases hokr
        rfl
    · intro r b hres
      split at hokr
      · cases hokr
        cases hres
      · cases hokr
        cases hres
        refine ⟨rfl, rfl, rfl, ?_, ?_⟩
        · unfold get_binned_distance
          simp only [List.length_dropLast]
          rw [(binSeries_lengths _ _ _).1]
        · unfold get_binned_distance
          simp only [List.length_dropLast]
          rw [(binSeries_lengths _ _ _).2]


/-! ### Modeling inputs (core.py)

`get_modeling_inputs` (core.py lines 282–438) receives a pandas DataFrame and
returns the regression design matrix `X` and response `Y`.  The embedding
models a DataFrame as a list of named, dtype-tagged columns plus a list of
rows; the index is positional (a fresh `RangeIndex`), so the index-aligned
`pd.merge(..., left_index=True, right_index=True)` is row-wise concatenation.
Cell values are rationals, strings or NaN; the value produced by the
`StandardScaler` for a cell `x` of a column with imputed mean `mu` and biased
variance `v` — `(x - mu)/sqrt(v)` — is carried symbolically as
`Cell.scaled x mu v`.  `feature_engineer_sales` is passed as an opaque frame
transformer.  The embedding is specialised to `as_panel=False` (the default),
so `index_cols = []` throughout.  Column-name collisions between the merged
frames (which pandas would disambiguate with `_x`/`_y` suffixes, typically
ending in a KeyError downstream) are not modelled; the theorems assume
collision-free names. -/

/-- A cell of a modeling DataFrame. -/
inductive Cell where
  | vnum : ℚ → Cell
  | vstr : String → Cell
  | null : Cell
  | scaled : ℚ → ℚ → ℚ → Cell
deriving DecidableEq

/-- pandas dtype: `obj` is a plain object column, `num` a numeric one, and
`cat cats` a `CategoricalDtype` whose stored categories are `cats` (in the
category order).  Both `obj` and `cat` have dtype kind `"O"`; only `num`
does not. -/
inductive Dty where
  | obj
  | num
  | cat : List Cell → Dty
deriving DecidableEq

/-- A DataFrame with a positional index: dtype-tagged named columns and rows
of cells (row `i`, column `j` is `rows[i][j]`). -/
structure DFrame where
  cols : List (String × Dty)
  rows : List (List Cell)
deriving DecidableEq

def colNames (F : DFrame) : List String := F.cols.map Prod.fst

def colIdx (F : DFrame) (c : String) : Option ℕ :=
  (colNames F).findIdx? (fun n => n == c)

def cellAt (r : List Cell) (i : ℕ) : Cell := r.getD i .null

/-- `features[c]` as a list of cells (empty when the column is absent). -/
def colVals (F : DFrame) (c : String) : List Cell :=
  match colIdx F c with
  | some i => F.rows.map (fun r => cellAt r i)
  | none => []

/-- The cell of column `c` in one row `r` of `F`. -/
def cellOf (F : DFrame) (c : String) (r : List Cell) : Cell :=
  match colIdx F c with
  | some i => cellAt r i
  | none => .null

/-- One row of `F.drop(labels=ks, axis=1)`. -/
def dropRowD (F : DFrame) (ks : List String) (r : List Cell) : List Cell :=
  ((F.cols.zip r).filter (fun q => decide (q.1.1 ∉ ks))).map Prod.snd

/-- `F.drop(labels=ks, axis=1)` (all call sites below pass labels that are
present, so pandas' KeyError cannot fire). -/
def dropColsD (F : DFrame) (ks : List String) : DFrame :=
  ⟨F.cols.filter (fun p => decide (p.1 ∉ ks)),
   F.rows.map (dropRowD F ks)⟩

/-- `F.dropna()`: drop every row holding a NaN. -/
def dropnaD (F : DFrame) : DFrame :=
  ⟨F.cols, F.rows.filter (fun r => decide (Cell.null ∉ r))⟩

/-- `str.startswith`, written over the character lists so that it evaluates
by kernel reduction. -/
def strStartsWith (s p : String) : Bool := p.data.isPrefixOf s.data

/-- Lexicographic comparison of character lists by code point. -/
def charListLtb : List Char → List Char → Bool
  | [], [] => false
  | [], _ :: _ => true
  | _ :: _, [] => false
  | a :: as, b :: bs => if a = b then charListLtb as bs else decide (a.toNat < b.toNat)

/-- The sort order pandas uses for the categories of an
`astype("category")` column: numbers by value, strings lexicographically,
mixed kinds by an arbitrary fixed rank. -/
def cellLeb : Cell → Cell → Bool
  | .vnum a, .vnum b => decide (a ≤ b)
  | .vstr a, .vstr b => charListLtb a.data b.data || a == b
  | a, b =>
    (match a with | .vnum _ => 0 | .vstr _ => 1 | .null => 2 | .scaled _ _ _ => 3)
      ≤ (match b with | .vnum _ => 0 | .vstr _ => 1 | .null => 2 | .scaled _ _ _ => 3)

/-- The categories of `features[c].astype("category")`: the distinct
non-null values, sorted. -/
def observedLevels (vs : List Cell) : List Cell :=
  ((vs.filter (fun v => decide (v ≠ .null))).dedup).insertionSort
    (fun a b => cellLeb a b = true)

/-- The string pandas uses for a level when naming its dummy column. -/
def cellToStr : Cell → String
  | .vstr s => s
  | .vnum q => toString q
  | .null => "nan"
  | .scaled _ _ _ => "scaled"

/-- The dtype of column `c`. -/
def colDty (F : DFrame) (c : String) : Option Dty :=
  (F.cols.find? (fun p => p.1 == c)).map Prod.snd

/-- The categories `pd.get_dummies` encodes for column `c`:
`features[c].astype("category")` is a no-op on an already-categorical column,
so its STORED categories are used (they may include levels no retained row
exhibits); on an object column the categories are the sorted observed
values. -/
def dummyLevels (F : DFrame) (c : String) : List Cell :=
  match colDty F c with
  | some (Dty.cat cats) => cats
  | _ => observedLevels (colVals F c)

/-- The column names `pd.get_dummies(features[c], prefix=c, drop_first=True)`
produces: one `c_level` column per category except the first. -/
def dummyNames (F : DFrame) (c : String) : List String :=
  ((dummyLevels F c).drop 1).map (fun l => c ++ "_" ++ cellToStr l)

/-- `REMOVE` (core.py lines 76–88). -/
def REMOVE : List String :=
  ["geometry", "sale_price", "sale_price_indexed", "time_offset",
   "ln_sale_price", "ln_sale_price_indexed", "lat", "lng",
   "police_district", "zip_code", "sale_year"]

/-- `BUILDING_CHARACTERISTICS` (core.py lines 18–46). -/
def BUILDING_CHARACTERISTICS : List String :=
  ["basements", "building_code_description", "central_air", "depth",
   "exterior_condition", "fireplaces", "frontage", "garage_spaces",
   "general_construction", "homestead_exemption", "interior_condition",
   "is_condo", "neighborhood", "number_of_bathrooms", "number_of_bedrooms",
   "number_of_rooms", "number_stories", "police_district", "season",
   "topography", "total_area", "total_livable_area", "type_heater",
   "view_type", "year_built", "zip_code", "zoning"]

/-- core.py lines 317–354: optional feature engineering, the `use_features`
trim, the drop of the unnecessary (`REMOVE` minus `endog`) columns and the
optional `dropna()`.  Every step is a column filter or a row filter. -/
def featuresAfterDropna (sales : DFrame) (engineer : DFrame → DFrame)
    (dropna : Bool) (endog : String) (use_features : Option (List String))
    (engineer_sales : Bool) : DFrame :=
  let features0 := if engineer_sales then engineer sales else sales
  let features1 := match use_features with
    | none => features0
    | some uf => dropColsD features0 (BUILDING_CHARACTERISTICS.filter
        (fun c => decide (c ∈ colNames features0) && decide (c ∉ uf)))
  let unnecessary := (REMOVE.filter (fun c => decide (c ≠ endog))).filter
    (fun c => decide (c ∈ colNames features1))
  let features2 := dropColsD features1 unnecessary
  if dropna then dropnaD features2 else features2

/-- `cat_cols` (core.py lines 362–366) with `index_cols = []`: the columns of
dtype kind `"O"` — plain object AND categorical columns. -/
def catColsOf (F : DFrame) : List String :=
  (F.cols.filter (fun p => p.2 != Dty.num)).map Prod.fst

/-- `num_cols` (core.py lines 367–371) with `index_cols = []`: the columns of
numeric dtype kind other than `endog`. -/
def numColsOf (F : DFrame) (endog : String) : List String :=
  ((F.cols.filter (fun p => p.2 == Dty.num)).map Prod.fst).filter
    (fun c => decide (c ≠ endog))

/-- The columns of `oneHotData` (core.py lines 374–384): per categorical
column, either the column itself (spacetime flags pass through raw) or its
dummy columns. -/
def oheBlocksCols (F : DFrame) (cat_cols : List String) : List (String × Dty) :=
  cat_cols.flatMap (fun c =>
    if strStartsWith c "spacetime" then [(c, (colDty F c).getD Dty.obj)]
    else (dummyNames F c).map (fun n => (n, Dty.num)))

/-- One row of `oneHotData`, computed from the matching row `r` of `F`. -/
def oheRow (F : DFrame) (cat_cols : List String) (r : List Cell) : List Cell :=
  cat_cols.flatMap (fun c =>
    if strStartsWith c "spacetime" then [cellOf F c r]
    else ((dummyLevels F c).drop 1).map
      (fun l => Cell.vnum (if cellOf F c r = l then 1 else 0)))

/-- core.py lines 386–393: the spacetime-flag columns are dropped from the
features and `oneHotData` is merged in on the (shared, positional) index. -/
def mergedOf (F : DFrame) : DFrame :=
  let flags := (colNames F).filter (fun c => strStartsWith c "spacetime")
  ⟨(dropColsD F flags).cols ++ oheBlocksCols F (catColsOf F),
   F.rows.map (fun r => dropRowD F flags r ++ oheRow F (catColsOf F) r)⟩

/-- core.py lines 392–398: after the merge the raw (non-spacetime)
categorical columns are dropped. -/
def merged2Of (F : DFrame) : DFrame :=
  dropColsD (mergedOf F) ((catColsOf F).filter (fun c => !strStartsWith c "spacetime"))

def getNum : Cell → Option ℚ
  | .vnum q => some q
  | _ => none

/-- `SimpleImputer(strategy="median")` on one column: NaNs replaced by the
median of the non-null values. -/
def imputedCol (vs : List Cell) : List ℚ :=
  let med := median (vs.filterMap getNum)
  vs.map (fun v => (getNum v).getD med)

/-- `StandardScaler` after imputation, carried symbolically: each value is
tagged with the column's mean and biased variance. -/
def scaledCol (vs : List Cell) : List Cell :=
  let xs := imputedCol vs
  let mu := listMean xs
  let va := listMean (xs.map (fun x => (x - mu) ^ 2))
  xs.map (fun x => Cell.scaled x mu va)

/-- core.py lines 419–426: `np.concatenate([features[cat_cols].values,
ct.fit_transform(features)], axis=1)` wrapped back into a DataFrame with
columns `cat_cols + num_cols` and a final `const=1.0` column.  The raw
object ndarray gives the first blocks object dtype. -/
def buildX (F featuresX : DFrame) (endog : String) : DFrame :=
  ⟨((oheBlocksCols F (catColsOf F)).map Prod.fst).map (fun c => (c, Dty.obj))
     ++ (numColsOf F endog).map (fun c => (c, Dty.num)) ++ [("const", Dty.num)],
   (List.range featuresX.rows.length).map (fun i =>
     ((oheBlocksCols F (catColsOf F)).map Prod.fst).map
        (fun c => (colVals featuresX c).getD i .null)
       ++ (numColsOf F endog).map
        (fun c => (scaledCol (colVals featuresX c)).getD i .null)
       ++ [Cell.vnum 1])⟩

structure MIResult where
  X : DFrame
  Y : List Cell
deriving DecidableEq

/-- core.py lines 362–438 on the trimmed feature frame.  Failure points kept
from the libraries: `pd.concat([])` with no categorical columns raises a
ValueError; `features[endog]` raises a KeyError when `endog` is gone;
`features[cat_cols]` raises a KeyError when a one-hot column is missing; the
`ColumnTransformer` raises a ValueError when a `num_cols` name is missing
from the frame (the fate of integer-dtype spacetime flags, which are dropped
at line 389 but stay in `num_cols`) and when a numeric column has no
observed value (the `SimpleImputer` drops it and the `pd.DataFrame`
constructor then fails on the shape mismatch). -/
def mkModelingInputs (F : DFrame) (endog : String) : Except Err MIResult :=
  if (catColsOf F).isEmpty then .error .valueError
  else
    match colIdx (merged2Of F) endog with
    | none => .error .keyError
    | some _ =>
      let featuresX := dropColsD (merged2Of F) [endog]
      if ((oheBlocksCols F (catColsOf F)).map Prod.fst).all
          (fun c => decide (c ∈ colNames featuresX)) = false then .error .keyError
      else if ((numColsOf F endog).all
          (fun c => decide (c ∈ colNames featuresX))) = false then .error .valueError
      else if ((numColsOf F endog).all
          (fun c => (colVals featuresX c).any (fun v => (getNum v).isSome))) = false
        then .error .valueError
      else .ok ⟨buildX F featuresX endog, colVals (merged2Of F) endog⟩

/-- `get_modeling_inputs` (core.py lines 282–438), specialised to
`as_panel=False`; `engineer` stands for `feature_engineer_sales`. -/
def get_modeling_inputs (sales : DFrame) (engineer : DFrame → DFrame)
    (dropna : Bool) (endog : String) (use_features : Option (List String))
    (engineer_sales : Bool) : Except Err MIResult :=
  if endog ∈ REMOVE then
    mkModelingInputs
      (featuresAfterDropna sales engineer dropna endog use_features engineer_sales)
      endog
  else .error .assertionError

theorem rows_length_dropColsD (F : DFrame) (ks : List String) :
    (dropColsD F ks).rows.length = F.rows.length := by
  simp [dropColsD]

theorem rows_length_mergedOf (F : DFrame) :
    (mergedOf F).rows.length = F.rows.length := by
  simp [mergedOf]

theorem rows_length_merged2Of (F : DFrame) :
    (merged2Of F).rows.length = F.rows.length := by
  simp [merged2Of, rows_length_dropColsD, rows_length_mergedOf]

theorem length_colVals (F : DFrame) (c : String) (i : ℕ)
    (h : colIdx F c = some i) : (colVals F c).length = F.rows.length := by
  simp [colVals, h]

theorem oheNames_eq (F : DFrame) (cat_cols : List String) :
    (oheBlocksCols F cat_cols).map Prod.fst =
      cat_cols.flatMap (fun c =>
        if strStartsWith c "spacetime" then [c] else dummyNames F c) := by
  simp only [oheBlocksCols, List.map_flatMap]
  refine List.flatMap_congr ?_
  intro c _
  split
  · simp
  · simp [Function.comp_def]

theorem colNames_buildX (F featuresX : DFrame) (endog : String) :
    colNames (buildX F featuresX endog) =
      (oheBlocksCols F (catColsOf F)).map Prod.fst
        ++ numColsOf F endog ++ ["const"] := by
  simp [buildX, colNames, List.map_map, Function.comp_def]

theorem remove_not_spacetime : ∀ s ∈ REMOVE, strStartsWith s "spacetime" = false := by
  decide

theorem const_not_remove : "const" ∉ REMOVE := by
  decide


theorem get_modeling_inputs_ok_elim (sales : DFrame) (eng : DFrame → DFrame)
    (dropna : Bool) (endog : String) (uf : Option (List String)) (es : Bool)
    (res : MIResult)
    (hok : get_modeling_inputs sales eng dropna endog uf es = .ok res) :
    endog ∈ REMOVE ∧
    ∃ i, colIdx (merged2Of (featuresAfterDropna sales eng dropna endog uf es))
        endog = some i ∧
      res = ⟨buildX (featuresAfterDropna sales eng dropna endog uf es)
          (dropColsD (merged2Of (featuresAfterDropna sales eng dropna endog uf es))
            [endog]) endog,
        colVals (merged2Of (featuresAfterDropna sales eng dropna endog uf es))
          endog⟩ := by
  simp only [get_modeling_inputs] at hok
  split at hok
  case isFalse => simp at hok
  case isTrue hE =>
    refine ⟨hE, ?_⟩
    simp only [mkModelingInputs] at hok
    split at hok
    · simp at hok
    · split at hok
      · simp at hok
      · rename_i i heq
        refine ⟨i, heq, ?_⟩
        split at hok
        · simp at hok
        · split at hok
          · simp at hok
          · split at hok
            · simp at hok
            · injection hok with h
              exact h.symm


/-- C10: whenever `get_modeling_inputs` succeeds, the design matrix `X` and
the response `Y` have the same number of rows, and that common count is the
number of sales retained after the optional feature engineering, the column
trims and the optional `dropna()` — every later stage (one-hot encoding,
merge on the shared index, imputation, scaling, constant column) is row-count
preserving. -/
theorem panelAssembler_row_counts (sales : DFrame) (eng : DFrame → DFrame)
    (dropna : Bool) (endog : String) (uf : Option (List String)) (es : Bool)
    (res : MIResult)
    (hok : get_modeling_inputs sales eng dropna endog uf es = .ok res) :
    res.X.rows.length = res.Y.length ∧
    res.Y.length =
      (featuresAfterDropna sales eng dropna endog uf es).rows.length := by
  obtain ⟨-, i, heq, hres⟩ :=
    get_modeling_inputs_ok_elim sales eng dropna endog uf es res hok
  subst hres
  constructor
  · rw [length_colVals _ _ _ heq]
    simp [buildX, rows_length_dropColsD, rows_length_merged2Of]
  · rw [length_colVals _ _ _ heq, rows_length_merged2Of]


/-- C9 as amended: whenever `get_modeling_inputs` succeeds — and the
dummy-column names do not collide with the response name (pandas would
disambiguate genuine collisions with merge suffixes and then fail on a
KeyError, so a successful run never exhibits them) — the design matrix `X`
does not contain the `endog` column, and its columns are exactly: per
kind-`"O"` column, either the column itself when it is a spacetime flag
(passed through un-encoded) or one indicator column per `get_dummies`
category except the first (reference dropped), followed by the numeric
columns and the constant.  For a PLAIN OBJECT column the categories are the
observed levels, so `k` observed levels contribute exactly `k - 1`
indicators; for a column carrying a `CategoricalDtype` (as
`feature_engineer_sales` assigns) the STORED categories are encoded, which
after row trimming (e.g. `dropna=True`) may strictly exceed the observed
levels — see `panelAssembler_unobserved_level_cex`. -/
theorem panelAssembler_design_matrix (sales : DFrame) (eng : DFrame → DFrame)
    (dropna : Bool) (endog : String) (uf : Option (List String)) (es : Bool)
    (res : MIResult)
    (hok : get_modeling_inputs sales eng dropna endog uf es = .ok res)
    (hhyg : ∀ c ∈ catColsOf (featuresAfterDropna sales eng dropna endog uf es),
      strStartsWith c "spacetime" = false →
      ∀ l ∈ dummyLevels (featuresAfterDropna sales eng dropna endog uf es) c,
        c ++ "_" ++ cellToStr l ≠ endog) :
    endog ∉ colNames res.X ∧
    colNames res.X =
      (catColsOf (featuresAfterDropna sales eng dropna endog uf es)).flatMap
        (fun c => if strStartsWith c "spacetime" then [c]
          else dummyNames (featuresAfterDropna sales eng dropna endog uf es) c)
      ++ numColsOf (featuresAfterDropna sales eng dropna endog uf es) endog
      ++ ["const"] ∧
    (∀ c ∈ catColsOf (featuresAfterDropna sales eng dropna endog uf es),
      strStartsWith c "spacetime" = false →
      (dummyNames (featuresAfterDropna sales eng dropna endog uf es) c).length =
        (dummyLevels (featuresAfterDropna sales eng dropna endog uf es) c).length
          - 1) ∧
    (∀ c ∈ catColsOf (featuresAfterDropna sales eng dropna endog uf es),
      strStartsWith c "spacetime" = false →
      colDty (featuresAfterDropna sales eng dropna endog uf es) c =
        some Dty.obj →
      dummyLevels (featuresAfterDropna sales eng dropna endog uf es) c =
        observedLevels
          (colVals (featuresAfterDropna sales eng dropna endog uf es) c)) := by
  obtain ⟨hE, i, heq, hres⟩ :=
    get_modeling_inputs_ok_elim sales eng dropna endog uf es res hok
  subst hres
  have hcols : colNames (buildX (featuresAfterDropna sales eng dropna endog uf es)
      (dropColsD (merged2Of (featuresAfterDropna sales eng dropna endog uf es))
        [endog]) endog) =
      (catColsOf (featuresAfterDropna sales eng dropna endog uf es)).flatMap
        (fun c => if strStartsWith c "spacetime" then [c]
          else dummyNames (featuresAfterDropna sales eng dropna endog uf es) c)
      ++ numColsOf (featuresAfterDropna sales eng dropna endog uf es) endog
      ++ ["const"] := by
    rw [colNames_buildX, oheNames_eq]
  refine ⟨?_, hcols, ?_, ?_⟩
  · intro hmem
    rw [hcols] at hmem
    rcases List.mem_append.1 hmem with h | h
    · rcases List.mem_append.1 h with h | h
      · obtain ⟨c, hc, hbranch⟩ := List.mem_flatMap.1 h
        by_cases hsp : strStartsWith c "spacetime" = true
        · rw [if_pos hsp, List.mem_singleton] at hbranch
          subst hbranch
          exact absurd hsp (by simp [remove_not_spacetime _ hE])
        · rw [if_neg hsp] at hbranch
          simp only [dummyNames, List.mem_map] at hbranch
          obtain ⟨l, hl, hname⟩ := hbranch
          exact hhyg c hc (Bool.not_eq_true _ ▸ hsp) l
            (List.mem_of_mem_drop hl) hname
      · simp [numColsOf, List.mem_filter] at h
    · rw [List.mem_singleton] at h
      subst h
      exact const_not_remove hE
  · intro c _ _
    simp [dummyNames]
  · intro c _ _ hdty
    simp [dummyLevels, hdty]

/-- Counterexample to C9 as frozen: `feature_engineer_sales` leaves the
categorical columns with a `CategoricalDtype`, and `pd.get_dummies` on such a
column encodes the STORED categories.  Here the `season` column stores the
two categories `summer < winter`, `dropna=True` drops the one row exhibiting
`winter`, so only `k = 1` level is observed — yet `X` still contains the
indicator column `season_winter` (one column, not `k - 1 = 0`). -/
def salesCat : DFrame :=
  ⟨[("ln_sale_price_indexed", .num),
    ("season", .cat [.vstr "summer", .vstr "winter"])],
   [[.vnum 10, .vstr "summer"], [.null, .vstr "winter"]]⟩

theorem panelAssembler_unobserved_level_cex :
    get_modeling_inputs salesCat (fun F => F) true "ln_sale_price_indexed"
        none false =
      .ok ⟨⟨[("season_winter", Dty.obj), ("const", Dty.num)],
        [[.vnum 0, .vnum 1]]⟩, [.vnum 10]⟩ ∧
    (observedLevels (colVals (featuresAfterDropna salesCat (fun F => F) true
      "ln_sale_price_indexed" none false) "season")).length = 1 :=
  ⟨by decide, by decide⟩

/-- A three-sale frame with the response and one three-level categorical
column. -/
def salesW : DFrame :=
  ⟨[("ln_sale_price_indexed", .num), ("season", .obj)],
   [[.vnum 10, .vstr "summer"], [.vnum 12, .vstr "winter"],
    [.vnum 11, .vstr "autumn"]]⟩

/-- What `get_modeling_inputs` returns on `salesW`: the reference level
`autumn` is dropped, the two remaining levels become indicator columns, and a
constant column is appended. -/
def miW : MIResult :=
  ⟨⟨[("season_summer", .obj), ("season_winter", .obj), ("const", .num)],
    [[.vnum 1, .vnum 0, .vnum 1], [.vnum 0, .vnum 1, .vnum 1],
     [.vnum 0, .vnum 0, .vnum 1]]⟩,
   [.vnum 10, .vnum 12, .vnum 11]⟩

/-- Witness for `panelAssembler_row_counts` at `salesW`: all three rows
survive (no NaNs, `dropna=False`) and `X` and `Y` both have three rows. -/
theorem panelAssembler_row_counts_witness :
    miW.X.rows.length = miW.Y.length ∧
    miW.Y.length = (featuresAfterDropna salesW (fun F => F) false
      "ln_sale_price_indexed" none false).rows.length :=
  panelAssembler_row_counts salesW (fun F => F) false "ln_sale_price_indexed"
    none false miW (by decide)

/-- A three-sale table whose first and last rows carry the boundary dates:
the 10-day trimming keeps only the middle sale, which lies at the homicide
location and sold one day after it. -/
def sWc8 : SaleTable :=
  ⟨[⟨some (5280, 0), 0, 0, 50, 1⟩,
    ⟨some (0, 0), 86400, 2000000, 100, 1⟩,
    ⟨some (5280, 0), 0, 4000000, 50, 1⟩], true⟩

def hWc8 : HomTable := ⟨[⟨some (0, 0), 0⟩], true⟩

/-- Witness for `distanceAggregator_spec` at a concrete input: the windowed
table holds one matched sale, whose single occupied bin is then dropped as
the final one, and the baseline is the median over the windowed sales. -/
theorem distanceAggregator_spec_witness :
    baselineOf (.pooled ⟨[], [], []⟩ 100) =
      median ((window_sales_rows sWc8 (10, 10)).map psf) ∧
    (linEdges ((1 : ℚ) * FT_PER_MILE) 1).head? = some 0 ∧
    (linEdges ((1 : ℚ) * FT_PER_MILE) 1).getLast? =
      some ((1 : ℚ) * FT_PER_MILE) := by
  have h := distanceAggregator_spec hWc8 sWc8 1 (10, 10) 1 false
    [⟨[86400], [], [0], [], [0]⟩] (.pooled ⟨[], [], []⟩ 100) le_rfl
    (by norm_num +decide [hWc8, sWc8, get_sale_groups_by_homicide,
      knn_distance, radius_neighbors, mkMatchGroup, saleTime, sqDist, sqrtLeB,
      afterTest, beforeTest, tableXY, FT_PER_MILE, SECONDS_PER_DAY,
      window_sales_rows, List.enum, List.enumFrom, List.filterMap_cons,
      List.filter_cons])
    (by norm_num +decide [hWc8, sWc8, get_sale_price_psf_from_homicide,
      get_sale_groups_by_homicide, knn_distance, radius_neighbors,
      mkMatchGroup, saleTime, sqDist, sqrtLeB, afterTest, beforeTest, tableXY,
      FT_PER_MILE, SECONDS_PER_DAY, window_sales_rows, psf, psfOf, median,
      listMean, get_binned_distance, binSeries, linEdges, dig, sqrtLe,
      List.enum, List.enumFrom, List.filterMap_cons, List.filter_cons,
      List.range_succ, List.insertionSort])
  exact ⟨h.1, h.2.1, h.2.2.1⟩

/-- Witness for `panelAssembler_design_matrix` at `salesW`: the response is
absent from `X`, whose columns are the two `season` dummies (a plain object
column with three observed levels, reference dropped) followed by the
constant. -/
theorem panelAssembler_design_matrix_witness :
    "ln_sale_price_indexed" ∉ colNames miW.X ∧
    colNames miW.X =
      (catColsOf (featuresAfterDropna salesW (fun F => F) false
        "ln_sale_price_indexed" none false)).flatMap
        (fun c => if strStartsWith c "spacetime" then [c]
          else dummyNames (featuresAfterDropna salesW (fun F => F) false
            "ln_sale_price_indexed" none false) c)
      ++ numColsOf (featuresAfterDropna salesW (fun F => F) false
          "ln_sale_price_indexed" none false) "ln_sale_price_indexed"
      ++ ["const"] ∧
    (∀ c ∈ catColsOf (featuresAfterDropna salesW (fun F => F) false
        "ln_sale_price_indexed" none false),
      strStartsWith c "spacetime" = false →
      (dummyNames (featuresAfterDropna salesW (fun F => F) false
        "ln_sale_price_indexed" none false) c).length =
        (dummyLevels (featuresAfterDropna salesW (fun F => F) false
          "ln_sale_price_indexed" none false) c).length - 1) ∧
    (∀ c ∈ catColsOf (featuresAfterDropna salesW (fun F => F) false
        "ln_sale_price_indexed" none false),
      strStartsWith c "spacetime" = false →
      colDty (featuresAfterDropna salesW (fun F => F) false
        "ln_sale_price_indexed" none false) c = some Dty.obj →
      dummyLevels (featuresAfterDropna salesW (fun F => F) false
        "ln_sale_price_indexed" none false) c =
        observedLevels (colVals (featuresAfterDropna salesW (fun F => F) false
          "ln_sale_price_indexed" none false) c)) :=
  panelAssembler_design_matrix salesW (fun F => F) false
    "ln_sale_price_indexed" none false miW (by decide) (by decide)

end GunViolence
